import Mathlib

/-!
Shallow embedding of the ingestion/reconciliation engine of the
pharma-ci-tool repository (`src/services/data_processor.py`), together
with proofs about the behaviour of its store-mutating entry points:
`process_clinical_trials`, `process_publications`, `process_news`,
`process_patents` and `link_trial_to_asset`.

The entity store (`src/database/models.py`) is modelled as in-memory
lists of rows, one list per table; SQLAlchemy `filter_by(...).first()`
becomes `List.find?`, an in-place mutation of the found ORM object
becomes replacement of the first matching row, and an `INSERT` becomes
an append.  Dictionary records coming from the collectors become
structures whose fields are `Option`-typed (`dict.get` never fails;
a `dict[...]` subscript on a missing key raises `KeyError`, which the
processor catches per record, so a record whose mandatory natural key
is absent is modelled by a `none` in that field and the step function
skips it).

Database primary keys (asset id, indication id) are positive integers
(SQLAlchemy autoincrement keys), so Python truthiness on an id-or-None
(`if asset_id`) coincides with a None test; ids are therefore modelled
as `Option ℕ+`, and truthiness as `Option.isSome`.

The `ClinicalTrialChange` table and the `last_updated` / `search_type`
columns are referenced by the processor and the dashboard but their
declarations are not part of `src/database/models.py` as shipped; their
shape below follows the processor's constructor calls and the spec's
Change Log contract (trial key, field name, old text, new text).
-/

namespace PharmaCI

/-- Database primary key: a positive integer, as produced by the
autoincrement primary-key columns of `src/database/models.py`. -/
abbrev DbId := ℕ+

/-- Dynamic (Python) value stored in a tracked trial field: the
processor only ever renders these with `str(...)` and compares the
renderings, so only the constructors and a rendering function are
needed.  Strings, integers (enrollment) and dates (completion date)
cover the values the collectors produce for tracked fields. -/
inductive Value where
  | vStr (s : String)
  | vInt (n : Int)
  | vDate (y m d : Nat)
deriving DecidableEq, Repr

/-- Python `str(...)` rendering of a tracked-field value. -/
def Value.render : Value → String
  | .vStr s => s
  | .vInt n => toString n
  | .vDate y m d => toString y ++ "-" ++ toString m ++ "-" ++ toString d

/-- Python truthiness of a value (`"" `, `0` are falsy; date objects are
always truthy). -/
def Value.truthy : Value → Bool
  | .vStr s => s != ""
  | .vInt n => n != 0
  | .vDate _ _ _ => true

/-- Upstream last-updated marker: either a bare date or a datetime
carrying a date part (`d` abstracts the calendar date, `t` the
time-of-day component a datetime additionally carries). -/
inductive Marker where
  | mDate (d : Nat)
  | mDateTime (d : Nat) (t : Nat)
deriving DecidableEq, Repr

/-- Date part of a marker: `x.date()` in Python, applicable to
datetimes; a bare date has no `date` attribute and is left alone. -/
def Marker.dateOf : Marker → Marker
  | .mDate d => .mDate d
  | .mDateTime d _ => .mDate d

/-- Normalisation performed by `process_clinical_trials` before the
cheap-skip comparison: `if hasattr(lu, "date"): lu = lu.date()`. -/
def normalizeLU : Option Marker → Option Marker
  | none => none
  | some m => some m.dateOf

/-- Python `a or b` on optional strings (`None` and `""` are falsy). -/
def strOr (a b : Option String) : Option String :=
  match a with
  | some s => if s = "" then b else some s
  | none => b

/-- Python `a or b` on optional dynamic values. -/
def valOr (a b : Option Value) : Option Value :=
  match a with
  | some v => if v.truthy then some v else b
  | none => b

/-- Rendering of an optional value: `str(v) if v is not None else None`. -/
def renderOpt (v : Option Value) : Option String := v.map Value.render

/-- Stored clinical-trial row (`clinical_trials` table plus the
`last_updated` / `search_type` columns the processor writes). -/
structure ClinicalTrial where
  nct_id : String
  asset_id : Option DbId
  indication_id : Option DbId
  title : Option String
  status : Option Value
  phase : Option Value
  start_date : Option Value
  completion_date : Option Value
  enrollment : Option Value
  sponsor : Option String
  primary_endpoint : Option String
  results_summary : Option String
  source_url : Option String
  last_updated : Option Marker
  search_type : Option String
  raw_data : Option String
deriving DecidableEq, Repr

/-- Incoming normalized trial record (a `dict`); `nct_id` is `none`
when the mandatory key is missing (the `trial["nct_id"]` subscript then
raises and the record is skipped). -/
structure TrialRec where
  nct_id : Option String
  last_updated : Option Marker
  title : Option String
  status : Option Value
  phase : Option Value
  start_date : Option Value
  completion_date : Option Value
  enrollment : Option Value
  sponsor : Option String
  primary_endpoint : Option String
  summary : Option String
  source_url : Option String
  raw_data : Option String
deriving DecidableEq, Repr

/-- Modelled from the spec: change-log row of the `ClinicalTrialChange`
table, whose declaration is absent from `src/database/models.py`; the
fields follow the processor's constructor calls and §4.2 of the spec
(trial key, field name, old text, new text). -/
structure ClinicalTrialChange where
  nct_id : String
  field_name : String
  old_value : Option String
  new_value : Option String
deriving DecidableEq, Repr

/-- The four trial fields tracked for change detection
(`TRACKED_TRIAL_FIELDS` in the source). -/
inductive TrackedField where
  | status
  | phase
  | enrollment
  | completionDate
deriving DecidableEq, Repr

/-- Column name of a tracked field as it appears in the source list. -/
def TrackedField.fname : TrackedField → String
  | .status => "status"
  | .phase => "phase"
  | .enrollment => "enrollment"
  | .completionDate => "completion_date"

def TRACKED_TRIAL_FIELDS : List TrackedField :=
  [.status, .phase, .enrollment, .completionDate]

/-- Value of a tracked field on a stored row (`getattr(existing, f)`). -/
def ClinicalTrial.tracked (t : ClinicalTrial) : TrackedField → Option Value
  | .status => t.status
  | .phase => t.phase
  | .enrollment => t.enrollment
  | .completionDate => t.completion_date

/-- Value of a tracked field on an incoming record (`new_data.get(f)`). -/
def TrialRec.tracked (r : TrialRec) : TrackedField → Option Value
  | .status => r.status
  | .phase => r.phase
  | .enrollment => r.enrollment
  | .completionDate => r.completion_date

/-- Stored publication row (`publications` table plus the
`indication_id` / `search_type` columns the processor writes). -/
structure Publication where
  pmid : String
  asset_id : Option DbId
  indication_id : Option DbId
  title : String
  authors : Option String
  journal : Option String
  publication_date : Option Value
  abstract : Option String
  doi : Option String
  source_url : Option String
  search_type : Option String
deriving DecidableEq, Repr

/-- Incoming publication record. -/
structure PubRec where
  pmid : Option String
  title : Option String
  authors : Option String
  journal : Option String
  publication_date : Option Value
  abstract : Option String
  doi : Option String
  source_url : Option String
deriving DecidableEq, Repr

/-- Stored news-article row (`news_articles` table plus `search_type`). -/
structure NewsArticle where
  asset_id : Option DbId
  title : Option String
  source : Option String
  published_at : Option Marker
  url : Option String
  summary : Option String
  sentiment_score : Option Value
  search_type : Option String
deriving DecidableEq, Repr

/-- Incoming news record. -/
structure NewsRec where
  title : Option String
  source : Option String
  published_at : Option Marker
  url : Option String
  summary : Option String
  sentiment_score : Option Value
deriving DecidableEq, Repr

/-- Stored patent row (`patents` table plus `search_type`). -/
structure Patent where
  patent_number : String
  asset_id : Option DbId
  title : Option String
  assignee : Option String
  filing_date : Option Marker
  grant_date : Option Marker
  abstract : Option String
  claims_count : Option Value
  source_url : Option String
  search_type : Option String
deriving DecidableEq, Repr

/-- Incoming patent record; `patent_number` is `none` when the
mandatory key is missing (subscript raises, record skipped). -/
structure PatentRec where
  patent_number : Option String
  title : Option String
  assignee : Option String
  filing_date : Option Marker
  grant_date : Option Marker
  abstract : Option String
  claims_count : Option Value
  source_url : Option String
deriving DecidableEq, Repr

/-- The entity store: one list of rows per table, plus the append-only
change log. -/
structure Store where
  trials : List ClinicalTrial
  changes : List ClinicalTrialChange
  pubs : List Publication
  news : List NewsArticle
  patents : List Patent
deriving DecidableEq, Repr

/-- Per-batch counters of `process_clinical_trials`. -/
structure Counts where
  new : Nat
  updated : Nat
  skipped : Nat
deriving DecidableEq, Repr

/-- Replace the first element satisfying `p` (the row the ORM query
returned and whose in-place mutation is flushed). -/
def replaceFirst {α : Type} (p : α → Bool) (x : α) : List α → List α
  | [] => []
  | a :: rest => if p a then x :: rest else a :: replaceFirst p x rest

/-- ORM lookup `session.query(ClinicalTrial).filter_by(nct_id=k).first()`. -/
def findTrial (ts : List ClinicalTrial) (k : String) : Option ClinicalTrial :=
  ts.find? (fun t => t.nct_id == k)

def setTrial (ts : List ClinicalTrial) (k : String) (row : ClinicalTrial) :
    List ClinicalTrial :=
  replaceFirst (fun t => t.nct_id == k) row ts

def findPub (ps : List Publication) (k : String) : Option Publication :=
  ps.find? (fun p => p.pmid == k)

def setPub (ps : List Publication) (k : String) (row : Publication) :
    List Publication :=
  replaceFirst (fun p => p.pmid == k) row ps

def findPatent (ps : List Patent) (k : String) : Option Patent :=
  ps.find? (fun p => p.patent_number == k)

def setPatent (ps : List Patent) (k : String) (row : Patent) : List Patent :=
  replaceFirst (fun p => p.patent_number == k) row ps

/-- Conflict test of the news unique index on `url`: a `NULL` url never
conflicts (standard unique-index semantics). -/
def newsUrlPresent (ns : List NewsArticle) (u : Option String) : Bool :=
  match u with
  | none => false
  | some s => ns.any (fun n => n.url == some s)

/-- Merge of the asset-id hint into an existing row:
`if asset_id and not existing.asset_id: existing.asset_id = asset_id`. -/
def merge_asset (aHint : Option DbId) (t : ClinicalTrial) : ClinicalTrial :=
  if aHint.isSome && t.asset_id.isNone then { t with asset_id := aHint } else t

/-- Merge of the indication-id hint into an existing row. -/
def merge_indication (iHint : Option DbId) (t : ClinicalTrial) : ClinicalTrial :=
  if iHint.isSome && t.indication_id.isNone then
    { t with indication_id := iHint } else t

/-- Both link merges, in source order (asset first). -/
def merge_links (aHint iHint : Option DbId) (t : ClinicalTrial) : ClinicalTrial :=
  merge_indication iHint (merge_asset aHint t)

/-- The `id_merged` flag: true iff at least one of the two merges fired
(note the indication guard reads the indication column, which the asset
merge does not touch). -/
def id_merged (aHint iHint : Option DbId) (t : ClinicalTrial) : Bool :=
  (aHint.isSome && t.asset_id.isNone) || (iHint.isSome && t.indication_id.isNone)

/-- Change event produced for one tracked field by
`_detect_trial_changes`, if any: values are rendered as text and an
event is emitted iff the renderings differ and the incoming one is
non-null. -/
def trialFieldChange (ex : ClinicalTrial) (r : TrialRec) (f : TrackedField) :
    Option ClinicalTrialChange :=
  let oldStr := renderOpt (ex.tracked f)
  let newStr := renderOpt (r.tracked f)
  if oldStr ≠ newStr ∧ newStr ≠ none then
    some ⟨ex.nct_id, f.fname, oldStr, newStr⟩
  else none

/-- Events recorded by `_detect_trial_changes` over the tracked fields,
in source order; the function's boolean result is `≠ []`. -/
def detect_trial_changes (ex : ClinicalTrial) (r : TrialRec) :
    List ClinicalTrialChange :=
  TRACKED_TRIAL_FIELDS.filterMap (trialFieldChange ex r)

/-- Row inserted for a never-before-seen trial identifier. -/
def insertTrialRow (aHint iHint : Option DbId) (stype : Option String)
    (k : String) (r : TrialRec) : ClinicalTrial :=
  { nct_id := k
    asset_id := aHint
    indication_id := iHint
    title := r.title
    status := r.status
    phase := r.phase
    start_date := r.start_date
    completion_date := r.completion_date
    enrollment := r.enrollment
    sponsor := r.sponsor
    primary_endpoint := r.primary_endpoint
    results_summary := r.summary
    source_url := r.source_url
    last_updated := r.last_updated
    search_type := stype
    raw_data := r.raw_data }

/-- Overwrite of the mutable fields on a changed row.  Title, sponsor
and start date fall back to the stored value when the incoming one is
falsy (`trial.get("title") or existing.title`); the remaining fields —
primary endpoint included (line 122 carries no `or` guard) — are
assigned unconditionally. -/
def applyTrialUpdate (ex : ClinicalTrial) (r : TrialRec) : ClinicalTrial :=
  { ex with
    title := strOr r.title ex.title
    status := r.status
    phase := r.phase
    start_date := valOr r.start_date ex.start_date
    completion_date := r.completion_date
    enrollment := r.enrollment
    sponsor := strOr r.sponsor ex.sponsor
    primary_endpoint := r.primary_endpoint
    results_summary := r.summary
    raw_data := r.raw_data }

/-- Row state after the differing-marker branch: the mutable fields are
overwritten only when at least one tracked field changed, and the new
upstream marker is always persisted. -/
def diffUpdatedRow (merged : ClinicalTrial) (r : TrialRec) : ClinicalTrial :=
  let evs := detect_trial_changes merged r
  let afterFields := if evs ≠ [] then applyTrialUpdate merged r else merged
  { afterFields with last_updated := r.last_updated }

/-- One iteration of the `process_clinical_trials` loop body. -/
def processTrialRecord (aHint iHint : Option DbId) (stype : Option String)
    (st : Store × Counts) (r : TrialRec) : Store × Counts :=
  match r.nct_id with
  | none => st
  | some k =>
    let store := st.1
    let c := st.2
    match findTrial store.trials k with
    | none =>
      ({ store with
           trials := store.trials ++ [insertTrialRow aHint iHint stype k r]
           changes := store.changes ++ [⟨k, "new_trial", none, some k⟩] },
       { c with new := c.new + 1 })
    | some existing =>
      let merged := merge_links aHint iHint existing
      if normalizeLU existing.last_updated = normalizeLU r.last_updated then
        ({ store with trials := setTrial store.trials k merged },
         if id_merged aHint iHint existing then
           { c with updated := c.updated + 1 }
         else
           { c with skipped := c.skipped + 1 })
      else
        let evs := detect_trial_changes merged r
        ({ store with
             trials := setTrial store.trials k (diffUpdatedRow merged r)
             changes := store.changes ++ evs },
         if evs ≠ [] then { c with updated := c.updated + 1 } else c)

/-- Entry point `process_clinical_trials`: fold of the loop body over
the batch, starting from zero counters. -/
def process_clinical_trials (aHint iHint : Option DbId) (stype : Option String)
    (store : Store) (trials : List TrialRec) : Store × Counts :=
  trials.foldl (processTrialRecord aHint iHint stype) (store, ⟨0, 0, 0⟩)

/-- Return value of `process_clinical_trials` (`new_count + updated_count`). -/
def trialsReturn (c : Counts) : Nat := c.new + c.updated

/-- Stored publication title: `pub.get("title") or "(No title)"`. -/
def pubTitle (t : Option String) : String :=
  match t with
  | some s => if s = "" then "(No title)" else s
  | none => "(No title)"

/-- Merge of the asset-id hint into an existing publication row. -/
def pub_merge_asset (a : Option DbId) (p : Publication) : Publication :=
  if a.isSome && p.asset_id.isNone then { p with asset_id := a } else p

/-- Merge of the indication-id hint into an existing publication row. -/
def pub_merge_indication (i : Option DbId) (p : Publication) : Publication :=
  if i.isSome && p.indication_id.isNone then { p with indication_id := i } else p

/-- One iteration of the `process_publications` loop body. -/
def processPubRecord (aHint iHint : Option DbId) (stype : Option String)
    (st : Store × Nat) (r : PubRec) : Store × Nat :=
  match r.pmid with
  | none => st
  | some k =>
    let store := st.1
    let c := st.2
    match findPub store.pubs k with
    | none =>
      ({ store with pubs := store.pubs ++
          [{ pmid := k
             asset_id := aHint
             indication_id := iHint
             title := pubTitle r.title
             authors := r.authors
             journal := r.journal
             publication_date := r.publication_date
             abstract := r.abstract
             doi := r.doi
             source_url := r.source_url
             search_type := stype }] }, c + 1)
    | some existing =>
      let merged := pub_merge_indication iHint (pub_merge_asset aHint existing)
      ({ store with pubs := setPub store.pubs k merged }, c)

/-- Entry point `process_publications`. -/
def process_publications (aHint iHint : Option DbId) (stype : Option String)
    (store : Store) (batch : List PubRec) : Store × Nat :=
  batch.foldl (processPubRecord aHint iHint stype) (store, 0)

/-- Row inserted for a news record. -/
def insertNewsRow (aHint : Option DbId) (stype : Option String) (r : NewsRec) :
    NewsArticle :=
  { asset_id := aHint
    title := r.title
    source := r.source
    published_at := r.published_at
    url := r.url
    summary := r.summary
    sentiment_score := r.sentiment_score
    search_type := stype }

/-- One iteration of the `process_news` loop body:
`INSERT ... ON CONFLICT (url) DO NOTHING`, counting only genuine
inserts (`rowcount > 0`).  The `url` column — the natural key — is
declared non-nullable in `src/database/models.py`, so a record with a
null URL fails its insert with a constraint violation that the
per-record `except` catches: the record is skipped and not counted
(per-record catch semantics per §7 of the spec). -/
def processNewsRecord (aHint : Option DbId) (stype : Option String)
    (st : Store × Nat) (r : NewsRec) : Store × Nat :=
  match r.url with
  | none => st
  | some u =>
    let store := st.1
    let c := st.2
    if newsUrlPresent store.news (some u) then st
    else ({ store with news := store.news ++ [insertNewsRow aHint stype r] }, c + 1)

/-- Entry point `process_news`. -/
def process_news (aHint : Option DbId) (stype : Option String)
    (store : Store) (batch : List NewsRec) : Store × Nat :=
  batch.foldl (processNewsRecord aHint stype) (store, 0)

/-- Row inserted for a patent record. -/
def insertPatentRow (aHint : Option DbId) (stype : Option String) (k : String)
    (r : PatentRec) : Patent :=
  { patent_number := k
    asset_id := aHint
    title := r.title
    assignee := r.assignee
    filing_date := r.filing_date
    grant_date := r.grant_date
    abstract := r.abstract
    claims_count := r.claims_count
    source_url := r.source_url
    search_type := stype }

/-- Refresh applied on patent-number conflict: the `set_` mapping of
the upsert overwrites exactly these five fields, unconditionally. -/
def patentRefresh (ex : Patent) (r : PatentRec) : Patent :=
  { ex with
    title := r.title
    assignee := r.assignee
    grant_date := r.grant_date
    abstract := r.abstract
    claims_count := r.claims_count }

/-- One iteration of the `process_patents` loop body:
`INSERT ... ON CONFLICT (patent_number) DO UPDATE`; the counter is
incremented for every record that does not raise. -/
def processPatentRecord (aHint : Option DbId) (stype : Option String)
    (st : Store × Nat) (r : PatentRec) : Store × Nat :=
  match r.patent_number with
  | none => st
  | some k =>
    let store := st.1
    let c := st.2
    match findPatent store.patents k with
    | none =>
      ({ store with patents := store.patents ++ [insertPatentRow aHint stype k r] },
       c + 1)
    | some existing =>
      ({ store with patents := setPatent store.patents k (patentRefresh existing r) },
       c + 1)

/-- Entry point `process_patents`. -/
def process_patents (aHint : Option DbId) (stype : Option String)
    (store : Store) (batch : List PatentRec) : Store × Nat :=
  batch.foldl (processPatentRecord aHint stype) (store, 0)

/-- Entry point `link_trial_to_asset`: sets the asset id of the trial
row unconditionally, returning whether the trial was found. -/
def link_trial_to_asset (store : Store) (nct_id : String) (asset_id : DbId) :
    Store × Bool :=
  match findTrial store.trials nct_id with
  | some t =>
    ({ store with trials := setTrial store.trials nct_id { t with asset_id := some asset_id } },
     true)
  | none => (store, false)

/-- A store mutation: one call to one of the five mutating entry points
of `DataProcessor`. -/
inductive Op where
  | trialsOp (batch : List TrialRec) (aHint iHint : Option DbId) (stype : Option String)
  | pubsOp (batch : List PubRec) (aHint iHint : Option DbId) (stype : Option String)
  | newsOp (batch : List NewsRec) (aHint : Option DbId) (stype : Option String)
  | patentsOp (batch : List PatentRec) (aHint : Option DbId) (stype : Option String)
  | linkOp (nct_id : String) (asset_id : DbId)

/-- Effect of one operation on the store. -/
def applyOp (store : Store) : Op → Store
  | .trialsOp b a i s => (process_clinical_trials a i s store b).1
  | .pubsOp b a i s => (process_publications a i s store b).1
  | .newsOp b a s => (process_news a s store b).1
  | .patentsOp b a s => (process_patents a s store b).1
  | .linkOp n aid => (link_trial_to_asset store n aid).1

/-- Effect of a sequence of operations. -/
def applyOps (store : Store) (ops : List Op) : Store :=
  ops.foldl applyOp store

/-- True for the four batch-processing operations; false for the
`link_trial_to_asset` utility. -/
def Op.isProcess : Op → Bool
  | .linkOp _ _ => false
  | _ => true

/-! ### Derived observations used in the statements -/

/-- Asset link of the stored trial row with the given natural key
(`none` when no such row exists). -/
def trialAsset (store : Store) (k : String) : Option (Option DbId) :=
  (findTrial store.trials k).map ClinicalTrial.asset_id

/-- Indication link of the stored trial row with the given natural key. -/
def trialInd (store : Store) (k : String) : Option (Option DbId) :=
  (findTrial store.trials k).map ClinicalTrial.indication_id

/-- Asset link of the stored publication row with the given natural key. -/
def pubAsset (store : Store) (k : String) : Option (Option DbId) :=
  (findPub store.pubs k).map Publication.asset_id

/-- Indication link of the stored publication row with the given key. -/
def pubInd (store : Store) (k : String) : Option (Option DbId) :=
  (findPub store.pubs k).map Publication.indication_id

/-- Asset link of the stored patent row with the given natural key. -/
def patentAsset (store : Store) (k : String) : Option (Option DbId) :=
  (findPatent store.patents k).map Patent.asset_id

/-- Asset link of the stored news row with the given URL. -/
def newsAsset (store : Store) (u : String) : Option (Option DbId) :=
  (store.news.find? (fun n => n.url == some u)).map NewsArticle.asset_id

/-- Write-once property of the foreign-key links between two store
states: every non-null asset/indication link present in the first state
is still present, with the same value, in the second. -/
def fkFrozen (s1 s2 : Store) : Prop :=
  (∀ k v, trialAsset s1 k = some (some v) → trialAsset s2 k = some (some v)) ∧
  (∀ k v, trialInd s1 k = some (some v) → trialInd s2 k = some (some v)) ∧
  (∀ k v, pubAsset s1 k = some (some v) → pubAsset s2 k = some (some v)) ∧
  (∀ k v, pubInd s1 k = some (some v) → pubInd s2 k = some (some v)) ∧
  (∀ k v, patentAsset s1 k = some (some v) → patentAsset s2 k = some (some v)) ∧
  (∀ u v, newsAsset s1 u = some (some v) → newsAsset s2 u = some (some v))

/-- A trial record is a pure skip for `process_clinical_trials` in the
given store: its key is present, the stored last-updated marker equals
the incoming one after date normalisation, and neither link merge can
fire (each present hint finds its column already set). -/
def readyRecord (aHint iHint : Option DbId) (store : Store) (r : TrialRec) : Prop :=
  ∃ k row, r.nct_id = some k ∧ findTrial store.trials k = some row ∧
    normalizeLU row.last_updated = normalizeLU r.last_updated ∧
    (aHint.isSome = true → row.asset_id.isSome = true) ∧
    (iHint.isSome = true → row.indication_id.isSome = true)

/-! ### Concrete sample data -/

/-- Fresh, empty store. -/
def emptyStore : Store :=
  { trials := [], changes := [], pubs := [], news := [], patents := [] }

/-- Trial record with every optional field absent. -/
def blankRec : TrialRec :=
  { nct_id := none, last_updated := none, title := none, status := none,
    phase := none, start_date := none, completion_date := none,
    enrollment := none, sponsor := none, primary_endpoint := none,
    summary := none, source_url := none, raw_data := none }

/-- Two records for the same trial identifier with different markers
and statuses (a batch with an in-batch duplicate key). -/
def recA : TrialRec :=
  { blankRec with
    nct_id := some "NCT0001"
    last_updated := some (.mDate 1)
    status := some (.vStr "RECRUITING") }

def recB : TrialRec :=
  { blankRec with
    nct_id := some "NCT0001"
    last_updated := some (.mDate 2)
    status := some (.vStr "COMPLETED") }

/-- First and second run of the duplicate-key batch. -/
def run1Dup : Store × Counts :=
  process_clinical_trials none none none emptyStore [recA, recB]

def run2Dup : Store × Counts :=
  process_clinical_trials none none none run1Dup.1 [recA, recB]

/-- A stored trial with no links. -/
def rowN : ClinicalTrial :=
  insertTrialRow none none none "NCT0002"
    { blankRec with
      nct_id := some "NCT0002"
      last_updated := some (.mDate 1)
      status := some (.vStr "RECRUITING") }

def storeN : Store := { emptyStore with trials := [rowN] }

/-- Same trial, same marker, semantically different status. -/
def recN1 : TrialRec :=
  { blankRec with
    nct_id := some "NCT0002"
    last_updated := some (.mDate 1)
    status := some (.vStr "COMPLETED") }

/-- Same trial, newer marker, no tracked-field change. -/
def recN2 : TrialRec :=
  { blankRec with
    nct_id := some "NCT0002"
    last_updated := some (.mDate 2)
    status := some (.vStr "RECRUITING") }

/-- Same trial, newer marker, changed status, sponsor present. -/
def recN3 : TrialRec :=
  { blankRec with
    nct_id := some "NCT0002"
    last_updated := some (.mDate 2)
    status := some (.vStr "COMPLETED")
    sponsor := some "Acme Pharma" }

/-- The same stored trial with its asset link already set. -/
def rowA : ClinicalTrial := { rowN with asset_id := some 1 }

def storeA : Store := { emptyStore with trials := [rowA] }

/-- The same stored trial with a primary endpoint recorded. -/
def rowE : ClinicalTrial := { rowN with primary_endpoint := some "Overall survival" }

def storeE : Store := { emptyStore with trials := [rowE] }

/-- A news record missing its natural key (no URL). -/
def badNews : NewsRec :=
  { title := some "Trial results announced", source := none,
    published_at := none, url := none, summary := none,
    sentiment_score := none }

/-- Two news records with the same URL and different titles. -/
def newsR1 : NewsRec :=
  { badNews with url := some "https://n.example/a", title := some "Title one" }

def newsR2 : NewsRec :=
  { badNews with url := some "https://n.example/a", title := some "Title two" }

/-- A thin patent stub and its later enriched re-observation. -/
def patRec1 : PatentRec :=
  { patent_number := some "US123", title := some "Widget", assignee := none,
    filing_date := none, grant_date := none, abstract := none,
    claims_count := none, source_url := none }

def patRec2 : PatentRec :=
  { patRec1 with abstract := some "Full text", grant_date := some (.mDate 5) }

def patStore : Store :=
  { emptyStore with patents := [insertPatentRow (some 1) none "US123" patRec1] }

/-! ### Generic lemmas about `List.find?` and `replaceFirst` -/

theorem find_app_left {α : Type} {p : α → Bool} {l : List α} {a : α}
    (h : l.find? p = some a) (l2 : List α) : (l ++ l2).find? p = some a := by
  induction l with
  | nil => simp [List.find?] at h
  | cons b t ih =>
    by_cases hb : p b = true
    · simp only [List.cons_append, List.find?, hb] at h ⊢; exact h
    · have hb2 : p b = false := by simpa using hb
      simp only [List.cons_append, List.find?, hb2] at h ⊢
      exact ih h

theorem find_app_right {α : Type} {p : α → Bool} {l : List α}
    (h : l.find? p = none) (l2 : List α) : (l ++ l2).find? p = l2.find? p := by
  induction l with
  | nil => simp
  | cons b t ih =>
    by_cases hb : p b = true
    · simp only [List.find?, hb] at h
      exact absurd h (by simp)
    · have hb2 : p b = false := by simpa using hb
      simp only [List.cons_append, List.find?, hb2] at h ⊢
      exact ih h

theorem find_sat {α : Type} {p : α → Bool} {l : List α} {a : α}
    (h : l.find? p = some a) : p a = true := by
  induction l with
  | nil => simp [List.find?] at h
  | cons b t ih =>
    by_cases hb : p b = true
    · simp only [List.find?, hb, Option.some.injEq] at h
      rwa [← h]
    · have hb2 : p b = false := by simpa using hb
      simp only [List.find?, hb2] at h
      exact ih h

theorem replaceFirst_find_same {α : Type} {p : α → Bool} {l : List α} {a : α}
    (h : l.find? p = some a) {x : α} (hx : p x = true) :
    (replaceFirst p x l).find? p = some x := by
  induction l with
  | nil => simp [List.find?] at h
  | cons b t ih =>
    by_cases hb : p b
    · simp [replaceFirst, hb, List.find?, hx]
    · simp only [Bool.not_eq_true] at hb
      simp [replaceFirst, hb, List.find?] at h ⊢
      exact ih h

theorem replaceFirst_find_other {α : Type} {p q : α → Bool} {l : List α}
    (hpq : ∀ a, q a = true → p a = false) {x : α} (hx : q x = false) :
    (replaceFirst p x l).find? q = l.find? q := by
  induction l with
  | nil => simp [replaceFirst]
  | cons b t ih =>
    by_cases hb : p b
    · have hqb : q b = false := by
        by_cases hq : q b
        · rw [hpq b hq] at hb; exact absurd hb (by simp)
        · simpa using hq
      simp [replaceFirst, hb, List.find?, hqb, hx]
    · simp only [Bool.not_eq_true] at hb
      simp [replaceFirst, hb, List.find?]
      by_cases hq : q b
      · simp [hq]
      · simp only [Bool.not_eq_true] at hq
        simp [hq]
        exact ih

theorem replaceFirst_self {α : Type} {p : α → Bool} {l : List α} {a : α}
    (h : l.find? p = some a) : replaceFirst p a l = l := by
  induction l with
  | nil => rfl
  | cons b t ih =>
    by_cases hb : p b = true
    · have hba : b = a := by
        simpa [List.find?, hb] using h
      subst hba
      simp [replaceFirst, hb]
    · have hb2 : p b = false := by simpa using hb
      simp only [List.find?, hb2] at h
      simp [replaceFirst, hb2, ih h]

/-! ### Basic facts about the merge and update helpers -/

theorem merge_asset_key (a : Option DbId) (t : ClinicalTrial) :
    (merge_asset a t).nct_id = t.nct_id := by
  unfold merge_asset; split <;> rfl

theorem merge_asset_ind (a : Option DbId) (t : ClinicalTrial) :
    (merge_asset a t).indication_id = t.indication_id := by
  unfold merge_asset; split <;> rfl

theorem merge_indication_key (i : Option DbId) (t : ClinicalTrial) :
    (merge_indication i t).nct_id = t.nct_id := by
  unfold merge_indication; split <;> rfl

theorem merge_indication_asset (i : Option DbId) (t : ClinicalTrial) :
    (merge_indication i t).asset_id = t.asset_id := by
  unfold merge_indication; split <;> rfl

theorem merge_links_key (a i : Option DbId) (t : ClinicalTrial) :
    (merge_links a i t).nct_id = t.nct_id := by
  unfold merge_links; rw [merge_indication_key, merge_asset_key]

theorem merge_links_lu (a i : Option DbId) (t : ClinicalTrial) :
    (merge_links a i t).last_updated = t.last_updated := by
  unfold merge_links merge_indication merge_asset
  split <;> split <;> rfl

theorem merge_links_tracked (a i : Option DbId) (t : ClinicalTrial)
    (f : TrackedField) : (merge_links a i t).tracked f = t.tracked f := by
  unfold merge_links merge_indication merge_asset
  cases f <;> (split <;> split <;> rfl)

theorem merge_links_title (a i : Option DbId) (t : ClinicalTrial) :
    (merge_links a i t).title = t.title := by
  unfold merge_links merge_indication merge_asset
  split <;> split <;> rfl

theorem merge_links_sponsor (a i : Option DbId) (t : ClinicalTrial) :
    (merge_links a i t).sponsor = t.sponsor := by
  unfold merge_links merge_indication merge_asset
  split <;> split <;> rfl

theorem merge_links_endpoint (a i : Option DbId) (t : ClinicalTrial) :
    (merge_links a i t).primary_endpoint = t.primary_endpoint := by
  unfold merge_links merge_indication merge_asset
  split <;> split <;> rfl

/-- An already-set asset link is never changed by the merge. -/
theorem merge_links_asset_frozen (a i : Option DbId) {t : ClinicalTrial}
    (h : t.asset_id.isSome) : (merge_links a i t).asset_id = t.asset_id := by
  unfold merge_links
  rw [merge_indication_asset]
  unfold merge_asset
  have hn : t.asset_id.isNone = false := by
    cases ht : t.asset_id with
    | none => rw [ht] at h; simp [Option.isSome] at h
    | some v => simp [Option.isNone]
  simp [hn]

/-- An already-set indication link is never changed by the merge. -/
theorem merge_links_ind_frozen (a i : Option DbId) {t : ClinicalTrial}
    (h : t.indication_id.isSome) :
    (merge_links a i t).indication_id = t.indication_id := by
  unfold merge_links
  unfold merge_indication
  rw [merge_asset_ind]
  have hn : t.indication_id.isNone = false := by
    cases ht : t.indication_id with
    | none => rw [ht] at h; simp [Option.isSome] at h
    | some v => simp [Option.isNone]
  simp [hn, merge_asset_ind]

/-- If the asset hint is present, the merged row's asset link is present. -/
theorem merge_links_asset_isSome {a : Option DbId} (i : Option DbId)
    (t : ClinicalTrial) (h : a.isSome) : (merge_links a i t).asset_id.isSome := by
  unfold merge_links
  rw [merge_indication_asset]
  unfold merge_asset
  cases ht : t.asset_id with
  | none => simp [h, Option.isNone]
  | some v => simp [Option.isNone, ht]

/-- If the indication hint is present, the merged row's indication link
is present. -/
theorem merge_links_ind_isSome (a : Option DbId) {i : Option DbId}
    (t : ClinicalTrial) (h : i.isSome) :
    (merge_links a i t).indication_id.isSome := by
  unfold merge_links
  unfold merge_indication
  rw [merge_asset_ind]
  cases ht : t.indication_id with
  | none => simp [h, Option.isNone, merge_asset_ind, ht]
  | some v => simp [Option.isNone, merge_asset_ind, ht]

theorem applyTrialUpdate_key (t : ClinicalTrial) (r : TrialRec) :
    (applyTrialUpdate t r).nct_id = t.nct_id := rfl

theorem applyTrialUpdate_asset (t : ClinicalTrial) (r : TrialRec) :
    (applyTrialUpdate t r).asset_id = t.asset_id := rfl

theorem applyTrialUpdate_ind (t : ClinicalTrial) (r : TrialRec) :
    (applyTrialUpdate t r).indication_id = t.indication_id := rfl

theorem find_app_nomatch {α : Type} {q : α → Bool} {x : α} (hx : q x = false)
    (l : List α) : (l ++ [x]).find? q = l.find? q := by
  cases h : l.find? q with
  | some a => rw [find_app_left h]
  | none => rw [find_app_right h]; simp [List.find?, hx]

/-- When neither hint can fire, the link merge is the identity. -/
theorem merge_links_noop {a i : Option DbId} {t : ClinicalTrial}
    (ha : a.isSome = true → t.asset_id.isSome = true)
    (hi : i.isSome = true → t.indication_id.isSome = true) :
    merge_links a i t = t := by
  have h1 : (a.isSome && t.asset_id.isNone) = false := by
    cases haa : a.isSome with
    | false => simp
    | true =>
      cases hta : t.asset_id with
      | none => have := ha haa; rw [hta] at this; simp at this
      | some v => simp [hta]
  have h2 : (i.isSome && t.indication_id.isNone) = false := by
    cases hii : i.isSome with
    | false => simp
    | true =>
      cases hti : t.indication_id with
      | none => have := hi hii; rw [hti] at this; simp at this
      | some v => simp [hti]
  unfold merge_links merge_asset merge_indication
  simp [h1, h2]

/-- When neither hint can fire, the `id_merged` flag is false. -/
theorem id_merged_false {a i : Option DbId} {t : ClinicalTrial}
    (ha : a.isSome = true → t.asset_id.isSome = true)
    (hi : i.isSome = true → t.indication_id.isSome = true) :
    id_merged a i t = false := by
  have h1 : (a.isSome && t.asset_id.isNone) = false := by
    cases haa : a.isSome with
    | false => simp
    | true =>
      cases hta : t.asset_id with
      | none => have := ha haa; rw [hta] at this; simp at this
      | some v => simp [hta]
  have h2 : (i.isSome && t.indication_id.isNone) = false := by
    cases hii : i.isSome with
    | false => simp
    | true =>
      cases hti : t.indication_id with
      | none => have := hi hii; rw [hti] at this; simp at this
      | some v => simp [hti]
  unfold id_merged
  simp [h1, h2]

/-- The trial-processing step never touches the other tables. -/
theorem trialStep_tables (a i : Option DbId) (s : Option String)
    (st : Store × Counts) (r : TrialRec) :
    ((processTrialRecord a i s st r).1).pubs = st.1.pubs ∧
    ((processTrialRecord a i s st r).1).news = st.1.news ∧
    ((processTrialRecord a i s st r).1).patents = st.1.patents := by
  obtain ⟨store, c⟩ := st
  unfold processTrialRecord
  cases r.nct_id with
  | none => exact ⟨rfl, rfl, rfl⟩
  | some k =>
    dsimp only
    cases findTrial store.trials k with
    | none => exact ⟨rfl, rfl, rfl⟩
    | some ex =>
      dsimp only
      refine ⟨?_, ?_, ?_⟩ <;> (split <;> rfl)

/-- The publication-processing step never touches the other tables nor
the change log. -/
theorem pubStep_tables (a i : Option DbId) (s : Option String)
    (st : Store × Nat) (r : PubRec) :
    ((processPubRecord a i s st r).1).trials = st.1.trials ∧
    ((processPubRecord a i s st r).1).changes = st.1.changes ∧
    ((processPubRecord a i s st r).1).news = st.1.news ∧
    ((processPubRecord a i s st r).1).patents = st.1.patents := by
  obtain ⟨store, c⟩ := st
  unfold processPubRecord
  cases r.pmid with
  | none => exact ⟨rfl, rfl, rfl, rfl⟩
  | some k =>
    dsimp only
    cases findPub store.pubs k with
    | none => exact ⟨rfl, rfl, rfl, rfl⟩
    | some ex => exact ⟨rfl, rfl, rfl, rfl⟩

/-- The news-processing step never touches the other tables nor the
change log. -/
theorem newsStep_tables (a : Option DbId) (s : Option String)
    (st : Store × Nat) (r : NewsRec) :
    ((processNewsRecord a s st r).1).trials = st.1.trials ∧
    ((processNewsRecord a s st r).1).changes = st.1.changes ∧
    ((processNewsRecord a s st r).1).pubs = st.1.pubs ∧
    ((processNewsRecord a s st r).1).patents = st.1.patents := by
  obtain ⟨store, c⟩ := st
  unfold processNewsRecord
  dsimp only
  refine ⟨?_, ?_, ?_, ?_⟩ <;>
    (split <;> first
      | rfl
      | (split <;> rfl))

/-- The patent-processing step never touches the other tables nor the
change log. -/
theorem patentStep_tables (a : Option DbId) (s : Option String)
    (st : Store × Nat) (r : PatentRec) :
    ((processPatentRecord a s st r).1).trials = st.1.trials ∧
    ((processPatentRecord a s st r).1).changes = st.1.changes ∧
    ((processPatentRecord a s st r).1).pubs = st.1.pubs ∧
    ((processPatentRecord a s st r).1).news = st.1.news := by
  obtain ⟨store, c⟩ := st
  unfold processPatentRecord
  cases r.patent_number with
  | none => exact ⟨rfl, rfl, rfl, rfl⟩
  | some k =>
    dsimp only
    cases findPatent store.patents k with
    | none => exact ⟨rfl, rfl, rfl, rfl⟩
    | some ex => exact ⟨rfl, rfl, rfl, rfl⟩

/-! ### Trial-specific corollaries of the list lemmas -/

theorem findTrial_sat {ts : List ClinicalTrial} {k : String} {row : ClinicalTrial}
    (h : findTrial ts k = some row) : row.nct_id = k := by
  have := find_sat h
  simpa using this

theorem findTrial_app {ts : List ClinicalTrial} {x : ClinicalTrial} {j : String}
    (hx : (x.nct_id == j) = false) : findTrial (ts ++ [x]) j = findTrial ts j :=
  @find_app_nomatch ClinicalTrial (fun t => t.nct_id == j) x hx ts

theorem setTrial_self {ts : List ClinicalTrial} {k : String} {row : ClinicalTrial}
    (h : findTrial ts k = some row) : setTrial ts k row = ts :=
  replaceFirst_self h

theorem findTrial_set_other {ts : List ClinicalTrial} {k j : String}
    {row : ClinicalTrial} (hjk : j ≠ k) (hrow : row.nct_id = k) :
    findTrial (setTrial ts k row) j = findTrial ts j := by
  apply replaceFirst_find_other
  · intro t ht
    have htj : t.nct_id = j := by simpa using ht
    simp [htj]
    exact hjk
  · simp [hrow]
    exact fun hh => hjk hh.symm

theorem findTrial_set_same {ts : List ClinicalTrial} {k : String}
    {row row2 : ClinicalTrial} (h : findTrial ts k = some row)
    (h2 : row2.nct_id = k) : findTrial (setTrial ts k row2) k = some row2 := by
  have hx : (row2.nct_id == k) = true := by simp [h2]
  exact replaceFirst_find_same h hx

theorem diffUpdatedRow_key (m : ClinicalTrial) (r : TrialRec) :
    (diffUpdatedRow m r).nct_id = m.nct_id := by
  unfold diffUpdatedRow
  dsimp only
  split <;> rfl

theorem diffUpdatedRow_lu (m : ClinicalTrial) (r : TrialRec) :
    (diffUpdatedRow m r).last_updated = r.last_updated := rfl

theorem diffUpdatedRow_asset (m : ClinicalTrial) (r : TrialRec) :
    (diffUpdatedRow m r).asset_id = m.asset_id := by
  unfold diffUpdatedRow
  dsimp only
  split <;> rfl

theorem diffUpdatedRow_ind (m : ClinicalTrial) (r : TrialRec) :
    (diffUpdatedRow m r).indication_id = m.indication_id := by
  unfold diffUpdatedRow
  dsimp only
  split <;> rfl

/-! ### Behaviour of one trial-processing step -/

/-- A ready record is a pure skip: the store is left untouched and only
the skipped counter is bumped. -/
theorem step_skip (a i : Option DbId) (s : Option String) (store : Store)
    (c : Counts) (r : TrialRec) (h : readyRecord a i store r) :
    processTrialRecord a i s (store, c) r =
      (store, { c with skipped := c.skipped + 1 }) := by
  obtain ⟨k, row, hk, hfind, hlu, ha, hi⟩ := h
  unfold processTrialRecord
  rw [hk]
  dsimp only
  rw [hfind]
  dsimp only
  rw [if_pos hlu, merge_links_noop ha hi, id_merged_false ha hi,
    setTrial_self hfind]
  simp

/-- Rows with another natural key are untouched by a step. -/
theorem step_frame (a i : Option DbId) (s : Option String) (store : Store)
    (c : Counts) (r : TrialRec) (j : String)
    (hj : ∀ k, r.nct_id = some k → j ≠ k) :
    findTrial ((processTrialRecord a i s (store, c) r).1).trials j =
      findTrial store.trials j := by
  unfold processTrialRecord
  cases hk : r.nct_id with
  | none => rfl
  | some k =>
    have hjk : j ≠ k := hj k hk
    dsimp only
    cases hf : findTrial store.trials k with
    | none =>
      dsimp only
      refine findTrial_app ?_
      simp [insertTrialRow]
      exact fun hh => hjk hh.symm
    | some ex =>
      have hexk : ex.nct_id = k := findTrial_sat hf
      dsimp only
      split
      · exact findTrial_set_other hjk (by rw [merge_links_key, hexk])
      · exact findTrial_set_other hjk
          (by rw [diffUpdatedRow_key, merge_links_key, hexk])

/-- After a step processes a record with key `k`, the stored row for
`k` has the record's (normalised) marker and each present hint finds
its link column set. -/
theorem step_establish (a i : Option DbId) (s : Option String) (store : Store)
    (c : Counts) (r : TrialRec) (k : String) (hk : r.nct_id = some k) :
    ∃ row, findTrial ((processTrialRecord a i s (store, c) r).1).trials k = some row ∧
      normalizeLU row.last_updated = normalizeLU r.last_updated ∧
      (a.isSome = true → row.asset_id.isSome = true) ∧
      (i.isSome = true → row.indication_id.isSome = true) := by
  unfold processTrialRecord
  rw [hk]
  dsimp only
  cases hf : findTrial store.trials k with
  | none =>
    dsimp only
    refine ⟨insertTrialRow a i s k r, ?_, rfl, ?_, ?_⟩
    · show (store.trials ++ [insertTrialRow a i s k r]).find?
        (fun t => t.nct_id == k) = _
      rw [find_app_right hf]
      simp [List.find?, insertTrialRow]
    · intro ha
      simpa [insertTrialRow] using ha
    · intro hi
      simpa [insertTrialRow] using hi
  | some ex =>
    have hexk : ex.nct_id = k := findTrial_sat hf
    dsimp only
    split
    · next hlu =>
      refine ⟨merge_links a i ex, ?_, ?_, ?_, ?_⟩
      · exact findTrial_set_same hf (by rw [merge_links_key, hexk])
      · rw [merge_links_lu]
        exact hlu
      · intro ha
        exact merge_links_asset_isSome _ _ ha
      · intro hi
        exact merge_links_ind_isSome _ _ hi
    · next hlu =>
      refine ⟨diffUpdatedRow (merge_links a i ex) r, ?_, ?_, ?_, ?_⟩
      · exact findTrial_set_same hf
          (by rw [diffUpdatedRow_key, merge_links_key, hexk])
      · rw [diffUpdatedRow_lu]
      · intro ha
        rw [diffUpdatedRow_asset]
        exact merge_links_asset_isSome _ _ ha
      · intro hi
        rw [diffUpdatedRow_ind]
        exact merge_links_ind_isSome _ _ hi

/-! ### Run-level lemmas for `process_clinical_trials` -/

/-- Rows whose key is hit by no record of the batch are untouched by the
whole run. -/
theorem run_frame (a i : Option DbId) (s : Option String) (j : String) :
    ∀ (batch : List TrialRec),
      (∀ r ∈ batch, ∀ k, r.nct_id = some k → j ≠ k) →
      ∀ store c,
        findTrial ((batch.foldl (processTrialRecord a i s) (store, c)).1).trials j =
          findTrial store.trials j := by
  intro batch
  induction batch with
  | nil =>
    intro _ store c
    rfl
  | cons r rest ih =>
    intro hj store c
    rw [List.foldl_cons]
    have h1 := step_frame a i s store c r j (hj r (by simp))
    have h2 := ih (fun r2 hr2 => hj r2 (List.mem_cons_of_mem _ hr2))
      (processTrialRecord a i s (store, c) r).1
      (processTrialRecord a i s (store, c) r).2
    rw [Prod.mk.eta] at h2
    rw [h2, h1]

/-- After one run over a batch of keyed records with pairwise distinct
keys, every record of the batch is ready (pure-skip) in the resulting
store. -/
theorem run_ready (a i : Option DbId) (s : Option String) :
    ∀ (batch : List TrialRec),
      (batch.filterMap TrialRec.nct_id).Nodup →
      (∀ r ∈ batch, r.nct_id.isSome = true) →
      ∀ store c r, r ∈ batch →
        readyRecord a i ((batch.foldl (processTrialRecord a i s) (store, c)).1) r := by
  intro batch
  induction batch with
  | nil =>
    intro _ _ store c r hr
    exact absurd hr (by simp)
  | cons r0 rest ih =>
    intro hnodup hkeys store c r hr
    obtain ⟨k0, hk0⟩ := Option.isSome_iff_exists.mp (hkeys r0 (by simp))
    have hfmap : (r0 :: rest).filterMap TrialRec.nct_id =
        k0 :: rest.filterMap TrialRec.nct_id := by
      simp [List.filterMap_cons, hk0]
    rw [hfmap, List.nodup_cons] at hnodup
    rcases List.mem_cons.mp hr with hr0 | hrest
    · -- the head record: established by its own step, framed by the rest
      subst hr0
      rw [List.foldl_cons]
      obtain ⟨row, hfind, hlu, ha, hi⟩ := step_establish a i s store c r k0 hk0
      have hframe := run_frame a i s k0 rest
        (fun r2 hr2 k2 hk2 => by
          intro hkk
          exact hnodup.1 (by
            rw [hkk]
            exact List.mem_filterMap.mpr ⟨r2, hr2, hk2⟩))
        (processTrialRecord a i s (store, c) r).1
        (processTrialRecord a i s (store, c) r).2
      rw [Prod.mk.eta] at hframe
      exact ⟨k0, row, hk0, by rw [hframe]; exact hfind, hlu, ha, hi⟩
    · -- a record of the tail: by the induction hypothesis
      rw [List.foldl_cons]
      have := ih hnodup.2 (fun r2 hr2 => hkeys r2 (List.mem_cons_of_mem _ hr2))
        (processTrialRecord a i s (store, c) r0).1
        (processTrialRecord a i s (store, c) r0).2
        r hrest
      rwa [Prod.mk.eta] at this

/-- A run over a batch of ready records leaves the store unchanged and
skips every record. -/
theorem run_skip (a i : Option DbId) (s : Option String) :
    ∀ (batch : List TrialRec) (store : Store) (c : Counts),
      (∀ r ∈ batch, readyRecord a i store r) →
      batch.foldl (processTrialRecord a i s) (store, c) =
        (store, { c with skipped := c.skipped + batch.length }) := by
  intro batch
  induction batch with
  | nil =>
    intro store c _
    simp
  | cons r rest ih =>
    intro store c h
    rw [List.foldl_cons, step_skip a i s store c r (h r (by simp))]
    rw [ih store _ (fun r2 hr2 => h r2 (List.mem_cons_of_mem _ hr2))]
    simp [Prod.mk.injEq, Counts.mk.injEq]
    omega

/-- When the tracked-field diff records no transition, the
differing-marker branch only persists the new marker. -/
theorem diffUpdatedRow_nochange {m : ClinicalTrial} {r : TrialRec}
    (h : detect_trial_changes m r = []) :
    diffUpdatedRow m r = { m with last_updated := r.last_updated } := by
  unfold diffUpdatedRow
  simp [h]

/-- When the tracked-field diff records a transition, the
differing-marker branch overwrites the mutable fields and persists the
new marker. -/
theorem diffUpdatedRow_change {m : ClinicalTrial} {r : TrialRec}
    (h : detect_trial_changes m r ≠ []) :
    diffUpdatedRow m r =
      { applyTrialUpdate m r with last_updated := r.last_updated } := by
  unfold diffUpdatedRow
  simp [h]

/-! ### Claim C2 -/

/-- C2: for an existing trial whose upstream last-updated marker,
normalised to date granularity, equals the stored one, the processing
step appends no change events, still applies the null-to-value link
merge for asset id and indication id, and counts the record as updated
exactly when a merge occurred and as skipped otherwise. -/
theorem C2_equal_marker_cheap_skip (a i : Option DbId) (s : Option String)
    (store : Store) (c : Counts) (r : TrialRec) (k : String)
    (row : ClinicalTrial) (hk : r.nct_id = some k)
    (hfind : findTrial store.trials k = some row)
    (hlu : normalizeLU row.last_updated = normalizeLU r.last_updated) :
    (processTrialRecord a i s (store, c) r).1.changes = store.changes ∧
    (processTrialRecord a i s (store, c) r).1.trials =
      setTrial store.trials k (merge_links a i row) ∧
    (id_merged a i row = true →
      (processTrialRecord a i s (store, c) r).2 =
        { c with updated := c.updated + 1 }) ∧
    (id_merged a i row = false →
      (processTrialRecord a i s (store, c) r).2 =
        { c with skipped := c.skipped + 1 }) := by
  unfold processTrialRecord
  rw [hk]
  dsimp only
  rw [hfind]
  dsimp only
  rw [if_pos hlu]
  refine ⟨rfl, rfl, ?_, ?_⟩
  · intro hm
    simp [hm]
  · intro hm
    simp [hm]

/-- C2 witness: concrete skip with an asset-id merge. -/
theorem C2_equal_marker_cheap_skip_witness :
    (processTrialRecord (some 1) none none (storeN, ⟨0, 0, 0⟩) recN1).1.changes =
      storeN.changes ∧
    (processTrialRecord (some 1) none none (storeN, ⟨0, 0, 0⟩) recN1).1.trials =
      setTrial storeN.trials "NCT0002" (merge_links (some 1) none rowN) ∧
    (id_merged (some 1) none rowN = true →
      (processTrialRecord (some 1) none none (storeN, ⟨0, 0, 0⟩) recN1).2 =
        { new := 0, updated := 0 + 1, skipped := 0 }) ∧
    (id_merged (some 1) none rowN = false →
      (processTrialRecord (some 1) none none (storeN, ⟨0, 0, 0⟩) recN1).2 =
        { new := 0, updated := 0, skipped := 0 + 1 }) :=
  C2_equal_marker_cheap_skip (some 1) none none storeN ⟨0, 0, 0⟩ recN1
    "NCT0002" rowN (by decide) (by decide) (by decide)

/-! ### Claim C3 -/

/-- C3 counterexample: a batch containing two records for the same
trial identifier with different markers and statuses; the second run of
the identical batch appends two further change events (four in total
against two after the first run) and skips no record, refuting both the
zero-new-events and the skipped-equals-batch-size parts of the claim. -/
theorem C3_counterexample :
    run2Dup.1.changes ≠ run1Dup.1.changes ∧
    run1Dup.1.changes.length = 2 ∧
    run2Dup.1.changes.length = 4 ∧
    run2Dup.2.skipped = 0 := by
  refine ⟨by decide, by decide, by decide, by decide⟩

/-- C3 (amended): for a batch whose records all carry a trial
identifier and whose identifiers are pairwise distinct, running
`process_clinical_trials` on the identical batch twice leaves the store
(rows and change log) exactly as after the first run, appends no change
events, and reports zero new, zero updated and a skipped count equal to
the batch size on the second run. -/
theorem C3_second_run_noop (a i : Option DbId) (s : Option String)
    (store : Store) (batch : List TrialRec)
    (hkeys : ∀ r ∈ batch, r.nct_id.isSome = true)
    (hnodup : (batch.filterMap TrialRec.nct_id).Nodup) :
    process_clinical_trials a i s
        (process_clinical_trials a i s store batch).1 batch =
      ((process_clinical_trials a i s store batch).1,
        { new := 0, updated := 0, skipped := batch.length }) := by
  unfold process_clinical_trials
  have hready := run_ready a i s batch hnodup hkeys store ⟨0, 0, 0⟩
  rw [run_skip a i s batch _ ⟨0, 0, 0⟩ (fun r hr => hready r hr)]
  simp

/-- C3 witness: the amended idempotence at a concrete one-record batch. -/
theorem C3_second_run_noop_witness :
    process_clinical_trials none none none
        (process_clinical_trials none none none emptyStore [recA]).1 [recA] =
      ((process_clinical_trials none none none emptyStore [recA]).1,
        { new := 0, updated := 0, skipped := 1 }) :=
  C3_second_run_noop none none none emptyStore [recA]
    (by intro r hr; simp at hr; rw [hr]; rfl) (by decide)

/-! ### Claim C5 -/

/-- C5: a record whose trial identifier is not in the store is inserted
as a full row (normalized fields, hinted foreign keys, search-type tag,
raw payload), exactly one change event with field name new_trial, null
old value and the identifier as new value is appended, and the record
is counted as new. -/
theorem C5_new_trial_insert (a i : Option DbId) (s : Option String)
    (store : Store) (c : Counts) (r : TrialRec) (k : String)
    (hk : r.nct_id = some k) (habs : findTrial store.trials k = none) :
    processTrialRecord a i s (store, c) r =
      ({ store with
           trials := store.trials ++ [insertTrialRow a i s k r]
           changes := store.changes ++
             [{ nct_id := k, field_name := "new_trial", old_value := none,
                new_value := some k }] },
       { c with new := c.new + 1 }) := by
  unfold processTrialRecord
  rw [hk]
  dsimp only
  rw [habs]

/-- C5 witness: concrete first-sight insert. -/
theorem C5_new_trial_insert_witness :
    processTrialRecord none none none (emptyStore, ⟨0, 0, 0⟩) recA =
      ({ emptyStore with
           trials := emptyStore.trials ++ [insertTrialRow none none none "NCT0001" recA]
           changes := emptyStore.changes ++
             [{ nct_id := "NCT0001", field_name := "new_trial", old_value := none,
                new_value := some "NCT0001" }] },
       { new := 0 + 1, updated := 0, skipped := 0 }) :=
  C5_new_trial_insert none none none emptyStore ⟨0, 0, 0⟩ recA "NCT0001"
    (by decide) (by decide)

/-! ### Claim C10 -/

/-- C10 counterexample: an existing trial with a differing marker and
no tracked-field transition, processed with an asset-id hint while the
stored asset column is null: the step also performs the link merge, so
it does not update only the stored marker as claimed — here the stored
asset id changes from null to 1 (while indeed no counter moves). -/
theorem C10_counterexample :
    trialAsset storeN "NCT0002" = some none ∧
    trialAsset (processTrialRecord (some 1) none none
        (storeN, ⟨0, 0, 0⟩) recN2).1 "NCT0002" = some (some 1) ∧
    (processTrialRecord (some 1) none none (storeN, ⟨0, 0, 0⟩) recN2).2 =
      ⟨0, 0, 0⟩ := by
  refine ⟨by decide, by decide, by decide⟩

/-- C10 (amended): for an existing trial whose incoming marker differs
but whose tracked-field comparison records no transition, the step
persists the new marker (and, when a hint applies to a null column, the
null-to-value link merge), appends no change events, and counts the
record toward none of new, updated or skipped — so the three reported
counts do not together cover the whole batch. -/
theorem C10_marker_only_update (a i : Option DbId) (s : Option String)
    (store : Store) (c : Counts) (r : TrialRec) (k : String)
    (row : ClinicalTrial) (hk : r.nct_id = some k)
    (hfind : findTrial store.trials k = some row)
    (hne : normalizeLU row.last_updated ≠ normalizeLU r.last_updated)
    (hnoch : detect_trial_changes (merge_links a i row) r = []) :
    (processTrialRecord a i s (store, c) r).2 = c ∧
    (processTrialRecord a i s (store, c) r).1.changes = store.changes ∧
    (processTrialRecord a i s (store, c) r).1.trials =
      setTrial store.trials k
        { merge_links a i row with last_updated := r.last_updated } := by
  unfold processTrialRecord
  rw [hk]
  dsimp only
  rw [hfind]
  dsimp only
  rw [if_neg hne]
  dsimp only
  refine ⟨?_, ?_, ?_⟩
  · simp [hnoch]
  · simp [hnoch]
  · rw [diffUpdatedRow_nochange hnoch]

/-- C10 witness: concrete marker-only update (no hints, so not even a
merge), counted nowhere. -/
theorem C10_marker_only_update_witness :
    (processTrialRecord none none none (storeN, ⟨0, 0, 0⟩) recN2).2 = ⟨0, 0, 0⟩ ∧
    (processTrialRecord none none none (storeN, ⟨0, 0, 0⟩) recN2).1.changes =
      storeN.changes ∧
    (processTrialRecord none none none (storeN, ⟨0, 0, 0⟩) recN2).1.trials =
      setTrial storeN.trials "NCT0002"
        { merge_links none none rowN with last_updated := recN2.last_updated } :=
  C10_marker_only_update none none none storeN ⟨0, 0, 0⟩ recN2 "NCT0002" rowN
    (by decide) (by decide) (by decide) (by decide)

/-! ### Claim C4 -/

theorem filter_filterMap_nil {α β : Type} (g : α → Option β) (q : β → Bool) :
    ∀ (l : List α), (∀ x ∈ l, ∀ ev, g x = some ev → q ev = false) →
      (l.filterMap g).filter q = [] := by
  intro l
  induction l with
  | nil => intro _; rfl
  | cons x xs ih =>
    intro h
    rw [List.filterMap_cons]
    cases hg : g x with
    | none => exact ih (fun y hy => h y (List.mem_cons_of_mem _ hy))
    | some ev =>
      have hq := h x (by simp) ev hg
      rw [List.filter_cons, hq]
      simp only [Bool.false_eq_true, if_false]
      exact ih (fun y hy => h y (List.mem_cons_of_mem _ hy))

theorem filter_filterMap_single {α β : Type} (g : α → Option β) (q : β → Bool) :
    ∀ (l : List α) (f : α), l.Nodup → f ∈ l →
      (∀ ev, g f = some ev → q ev = true) →
      (∀ y ∈ l, y ≠ f → ∀ ev, g y = some ev → q ev = false) →
      (l.filterMap g).filter q = (g f).toList := by
  intro l
  induction l with
  | nil =>
    intro f _ hf
    exact absurd hf (by simp)
  | cons x xs ih =>
    intro f hnd hf hq hother
    rw [List.nodup_cons] at hnd
    rcases List.mem_cons.mp hf with hfx | hfxs
    · subst hfx
      rw [List.filterMap_cons]
      have htail : (xs.filterMap g).filter q = [] := by
        apply filter_filterMap_nil
        intro y hy ev hev
        exact hother y (List.mem_cons_of_mem _ hy)
          (fun hyf => hnd.1 (hyf ▸ hy)) ev hev
      cases hg : g f with
      | none => simpa using htail
      | some ev =>
        have hqe := hq ev hg
        rw [List.filter_cons, hqe]
        simp only [if_true]
        rw [htail]
        rfl
    · have hxf : x ≠ f := fun hxf => hnd.1 (hxf ▸ hfxs)
      rw [List.filterMap_cons]
      cases hg : g x with
      | none =>
        exact ih f hnd.2 hfxs hq
          (fun y hy => hother y (List.mem_cons_of_mem _ hy))
      | some ev =>
        have hqe := hother x (by simp) hxf ev hg
        rw [List.filter_cons, hqe]
        simp only [Bool.false_eq_true, if_false]
        exact ih f hnd.2 hfxs hq
          (fun y hy => hother y (List.mem_cons_of_mem _ hy))

theorem trialFieldChange_name {ex : ClinicalTrial} {r : TrialRec}
    {g : TrackedField} {ev : ClinicalTrialChange}
    (h : trialFieldChange ex r g = some ev) : ev.field_name = g.fname := by
  unfold trialFieldChange at h
  dsimp only at h
  split at h
  · have h2 := Option.some.inj h
    rw [← h2]
  · cases h

/-- Restriction of the detected change events to one tracked field:
either the single event for that field, or nothing. -/
theorem detect_filter (ex : ClinicalTrial) (r : TrialRec) (f : TrackedField)
    (hf : f ∈ TRACKED_TRIAL_FIELDS) :
    (detect_trial_changes ex r).filter (fun ev => ev.field_name == f.fname) =
      (trialFieldChange ex r f).toList := by
  apply filter_filterMap_single _ _ TRACKED_TRIAL_FIELDS f (by decide) hf
  · intro ev hev
    rw [trialFieldChange_name hev]
    simp
  · intro y hy hyf ev hev
    rw [trialFieldChange_name hev]
    cases y <;> cases f <;> first
      | exact absurd rfl hyf
      | decide

/-- C4: for an existing trial whose stored marker differs from the
incoming one, each tracked field (status, phase, enrollment, completion
date) contributes exactly one appended change event, carrying the old
and new values rendered as text, precisely when the incoming value is
non-null and its text form differs from the stored text form; otherwise
the field contributes no event. -/
theorem C4_tracked_field_events (a i : Option DbId) (s : Option String)
    (store : Store) (c : Counts) (r : TrialRec) (k : String)
    (row : ClinicalTrial) (hk : r.nct_id = some k)
    (hfind : findTrial store.trials k = some row)
    (hne : normalizeLU row.last_updated ≠ normalizeLU r.last_updated) :
    ∀ f ∈ TRACKED_TRIAL_FIELDS,
      ((processTrialRecord a i s (store, c) r).1.changes.drop
          store.changes.length).filter (fun ev => ev.field_name == f.fname) =
        (if renderOpt (r.tracked f) ≠ none ∧
            renderOpt (row.tracked f) ≠ renderOpt (r.tracked f)
         then [{ nct_id := k, field_name := f.fname,
                 old_value := renderOpt (row.tracked f),
                 new_value := renderOpt (r.tracked f) }]
         else []) := by
  intro f hf
  unfold processTrialRecord
  rw [hk]
  dsimp only
  rw [hfind]
  dsimp only
  rw [if_neg hne]
  dsimp only
  rw [List.drop_left, detect_filter _ _ f hf]
  have hkey : (merge_links a i row).nct_id = k := by
    rw [merge_links_key]
    exact findTrial_sat hfind
  unfold trialFieldChange
  dsimp only
  rw [merge_links_tracked, hkey]
  by_cases hcond : renderOpt (row.tracked f) ≠ renderOpt (r.tracked f) ∧
      renderOpt (r.tracked f) ≠ none
  · rw [if_pos hcond, if_pos ⟨hcond.2, hcond.1⟩]
    rfl
  · rw [if_neg hcond, if_neg (fun hc => hcond ⟨hc.2, hc.1⟩)]
    rfl

/-- C4 witness: the status transition RECRUITING to COMPLETED appears
as exactly one event on a concrete update. -/
theorem C4_tracked_field_events_witness :
    ((processTrialRecord none none none (storeN, ⟨0, 0, 0⟩) recN3).1.changes.drop
        storeN.changes.length).filter
      (fun ev => ev.field_name == TrackedField.status.fname) =
      (if renderOpt (recN3.tracked .status) ≠ none ∧
          renderOpt (rowN.tracked .status) ≠ renderOpt (recN3.tracked .status)
       then [{ nct_id := "NCT0002", field_name := TrackedField.status.fname,
               old_value := renderOpt (rowN.tracked .status),
               new_value := renderOpt (recN3.tracked .status) }]
       else []) :=
  C4_tracked_field_events none none none storeN ⟨0, 0, 0⟩ recN3 "NCT0002" rowN
    (by decide) (by decide) (by decide) .status (by decide)

/-! ### Claim C6 -/

theorem updateLu_key (m : ClinicalTrial) (lu : Option Marker) :
    ({ m with last_updated := lu } : ClinicalTrial).nct_id = m.nct_id := rfl

/-- C6 counterexample: the overwrite block guards title (line 115) and
sponsor (line 121) with `or existing...`, but line 122 assigns
`existing.primary_endpoint = trial.get("primary_endpoint")` with no
guard — so on a changed update a null incoming primary endpoint
clobbers the stored one: here the stored endpoint is non-null, the
incoming record (differing marker, changed status) carries a null
endpoint, and the stored endpoint ends up null. -/
theorem C6_counterexample :
    rowE.primary_endpoint = some "Overall survival" ∧
    recN3.primary_endpoint = none ∧
    normalizeLU rowE.last_updated ≠ normalizeLU recN3.last_updated ∧
    detect_trial_changes (merge_links none none rowE) recN3 ≠ [] ∧
    (findTrial (processTrialRecord none none none
        (storeE, ⟨0, 0, 0⟩) recN3).1.trials "NCT0002").map
      ClinicalTrial.primary_endpoint = some none := by
  refine ⟨rfl, rfl, by decide, by decide, by decide⟩

/-- C6 (amended): when the marker differs and at least one tracked
field changed, the step overwrites the mutable fields (status, phase,
enrollment, completion date, and also the primary endpoint, taken
verbatim from the record even when null); only title and sponsor are
overwritten solely when the incoming value is non-null — a null
incoming value for either of those two leaves the stored value
unchanged. -/
theorem C6_guarded_overwrite (a i : Option DbId) (s : Option String)
    (store : Store) (c : Counts) (r : TrialRec) (k : String)
    (row : ClinicalTrial) (hk : r.nct_id = some k)
    (hfind : findTrial store.trials k = some row)
    (hne : normalizeLU row.last_updated ≠ normalizeLU r.last_updated)
    (hch : detect_trial_changes (merge_links a i row) r ≠ []) :
    ∃ row2,
      findTrial (processTrialRecord a i s (store, c) r).1.trials k = some row2 ∧
      row2.status = r.status ∧
      row2.phase = r.phase ∧
      row2.enrollment = r.enrollment ∧
      row2.completion_date = r.completion_date ∧
      row2.primary_endpoint = r.primary_endpoint ∧
      (r.title = none → row2.title = row.title) ∧
      (row2.title ≠ row.title → r.title ≠ none) ∧
      (r.sponsor = none → row2.sponsor = row.sponsor) ∧
      (row2.sponsor ≠ row.sponsor → r.sponsor ≠ none) := by
  unfold processTrialRecord
  rw [hk]
  dsimp only
  rw [hfind]
  dsimp only
  rw [if_neg hne]
  dsimp only
  rw [diffUpdatedRow_change hch]
  refine ⟨{ applyTrialUpdate (merge_links a i row) r with
            last_updated := r.last_updated },
    ?_, rfl, rfl, rfl, rfl, rfl, ?_, ?_, ?_, ?_⟩
  · apply findTrial_set_same hfind
    rw [updateLu_key, applyTrialUpdate_key, merge_links_key]
    exact findTrial_sat hfind
  · intro h0
    simp [applyTrialUpdate, strOr, h0, merge_links_title]
  · intro hne2 h0
    exact hne2 (by simp [applyTrialUpdate, strOr, h0, merge_links_title])
  · intro h0
    simp [applyTrialUpdate, strOr, h0, merge_links_sponsor]
  · intro hne2 h0
    exact hne2 (by simp [applyTrialUpdate, strOr, h0, merge_links_sponsor])

/-- C6 witness: a concrete changed update with a null incoming title
(stored title kept), a non-null sponsor, and a null incoming primary
endpoint clearing the stored one. -/
theorem C6_guarded_overwrite_witness :
    ∃ row2,
      findTrial (processTrialRecord none none none
          (storeE, ⟨0, 0, 0⟩) recN3).1.trials "NCT0002" = some row2 ∧
      row2.status = recN3.status ∧
      row2.phase = recN3.phase ∧
      row2.enrollment = recN3.enrollment ∧
      row2.completion_date = recN3.completion_date ∧
      row2.primary_endpoint = recN3.primary_endpoint ∧
      (recN3.title = none → row2.title = rowE.title) ∧
      (row2.title ≠ rowE.title → recN3.title ≠ none) ∧
      (recN3.sponsor = none → row2.sponsor = rowE.sponsor) ∧
      (row2.sponsor ≠ rowE.sponsor → recN3.sponsor ≠ none) :=
  C6_guarded_overwrite none none none storeE ⟨0, 0, 0⟩ recN3 "NCT0002" rowE
    (by decide) (by decide) (by decide) (by decide)

/-! ### Claim C7 -/

/-- C7: re-processing a patent whose number is already stored
overwrites title, assignee, grant date, abstract and claims count with
the incoming values unconditionally (nulls included), leaves the asset
id and filing date as set at initial insert, counts the record, and
produces no change-log entries. -/
theorem C7_patent_refresh_on_conflict (a : Option DbId) (s : Option String)
    (store : Store) (c : Nat) (r : PatentRec) (k : String) (ex : Patent)
    (hk : r.patent_number = some k)
    (hfind : findPatent store.patents k = some ex) :
    (processPatentRecord a s (store, c) r).1.changes = store.changes ∧
    (processPatentRecord a s (store, c) r).1.patents =
      setPatent store.patents k (patentRefresh ex r) ∧
    (processPatentRecord a s (store, c) r).2 = c + 1 ∧
    (patentRefresh ex r).title = r.title ∧
    (patentRefresh ex r).assignee = r.assignee ∧
    (patentRefresh ex r).grant_date = r.grant_date ∧
    (patentRefresh ex r).abstract = r.abstract ∧
    (patentRefresh ex r).claims_count = r.claims_count ∧
    (patentRefresh ex r).asset_id = ex.asset_id ∧
    (patentRefresh ex r).filing_date = ex.filing_date := by
  unfold processPatentRecord
  rw [hk]
  dsimp only
  rw [hfind]
  exact ⟨rfl, rfl, rfl, rfl, rfl, rfl, rfl, rfl, rfl, rfl⟩

/-- C7 witness: enriching a concrete thin patent stub. -/
theorem C7_patent_refresh_on_conflict_witness :
    (processPatentRecord (some 1) none (patStore, 0) patRec2).1.changes =
      patStore.changes ∧
    (processPatentRecord (some 1) none (patStore, 0) patRec2).1.patents =
      setPatent patStore.patents "US123"
        (patentRefresh (insertPatentRow (some 1) none "US123" patRec1) patRec2) ∧
    (processPatentRecord (some 1) none (patStore, 0) patRec2).2 = 0 + 1 ∧
    (patentRefresh (insertPatentRow (some 1) none "US123" patRec1) patRec2).title =
      patRec2.title ∧
    (patentRefresh (insertPatentRow (some 1) none "US123" patRec1) patRec2).assignee =
      patRec2.assignee ∧
    (patentRefresh (insertPatentRow (some 1) none "US123" patRec1) patRec2).grant_date =
      patRec2.grant_date ∧
    (patentRefresh (insertPatentRow (some 1) none "US123" patRec1) patRec2).abstract =
      patRec2.abstract ∧
    (patentRefresh (insertPatentRow (some 1) none "US123" patRec1) patRec2).claims_count =
      patRec2.claims_count ∧
    (patentRefresh (insertPatentRow (some 1) none "US123" patRec1) patRec2).asset_id =
      (insertPatentRow (some 1) none "US123" patRec1).asset_id ∧
    (patentRefresh (insertPatentRow (some 1) none "US123" patRec1) patRec2).filing_date =
      (insertPatentRow (some 1) none "US123" patRec1).filing_date :=
  C7_patent_refresh_on_conflict (some 1) none patStore 0 patRec2 "US123"
    (insertPatentRow (some 1) none "US123" patRec1) (by decide) (by decide)

/-! ### Claim C8 -/

/-- The value returned by the news fold equals the number of rows it
appended, and the previously stored rows are preserved as a prefix. -/
theorem news_count_appended (a : Option DbId) (s : Option String) :
    ∀ (batch : List NewsRec) (store : Store) (c : Nat),
      ∃ extra,
        (batch.foldl (processNewsRecord a s) (store, c)).1.news =
          store.news ++ extra ∧
        (batch.foldl (processNewsRecord a s) (store, c)).2 = c + extra.length := by
  intro batch
  induction batch with
  | nil =>
    intro store c
    exact ⟨[], by simp, by simp⟩
  | cons r rest ih =>
    intro store c
    rw [List.foldl_cons]
    cases hu : r.url with
    | none =>
      have hstep : processNewsRecord a s (store, c) r = (store, c) := by
        unfold processNewsRecord
        rw [hu]
      rw [hstep]
      exact ih store c
    | some u =>
      by_cases hp : newsUrlPresent store.news (some u) = true
      · have hstep : processNewsRecord a s (store, c) r = (store, c) := by
          unfold processNewsRecord
          rw [hu]
          dsimp only
          rw [if_pos hp]
        rw [hstep]
        exact ih store c
      · have hstep : processNewsRecord a s (store, c) r =
            ({ store with news := store.news ++ [insertNewsRow a s r] }, c + 1) := by
          unfold processNewsRecord
          rw [hu]
          dsimp only
          rw [if_neg hp]
        rw [hstep]
        obtain ⟨extra, h1, h2⟩ :=
          ih { store with news := store.news ++ [insertNewsRow a s r] } (c + 1)
        refine ⟨insertNewsRow a s r :: extra, ?_, ?_⟩
        · rw [h1]
          simp
        · rw [h2]
          simp only [List.length_cons]
          omega

/-- C8: a news record whose URL is already stored is dropped silently
(no merge, no overwrite, no duplicate row, no count increment); the
value a batch returns is the number of genuinely new rows appended; and
a batch of two records sharing a URL not yet stored ends with exactly
one new row, carrying the first-submitted title, and an inserted count
of one. -/
theorem C8_news_url_dedup :
    (∀ (a : Option DbId) (s : Option String) (store : Store) (c : Nat)
        (r : NewsRec), newsUrlPresent store.news r.url = true →
        processNewsRecord a s (store, c) r = (store, c)) ∧
    (∀ (a : Option DbId) (s : Option String) (store : Store)
        (batch : List NewsRec),
        ∃ extra, (process_news a s store batch).1.news = store.news ++ extra ∧
          (process_news a s store batch).2 = extra.length) ∧
    (∀ (a : Option DbId) (s : Option String) (store : Store) (r1 r2 : NewsRec)
        (u : String), r1.url = some u → r2.url = some u →
        r1.title ≠ r2.title → newsUrlPresent store.news (some u) = false →
        process_news a s store [r1, r2] =
          ({ store with news := store.news ++ [insertNewsRow a s r1] }, 1)) := by
  refine ⟨?_, ?_, ?_⟩
  · intro a s store c r hp
    unfold processNewsRecord
    cases hu : r.url with
    | none => rfl
    | some u =>
      rw [hu] at hp
      dsimp only
      rw [if_pos hp]
  · intro a s store batch
    obtain ⟨extra, h1, h2⟩ := news_count_appended a s batch store 0
    unfold process_news
    refine ⟨extra, h1, ?_⟩
    rw [h2]
    simp
  · intro a s store r1 r2 u h1 h2 _ habs
    have hs1 : processNewsRecord a s (store, 0) r1 =
        ({ store with news := store.news ++ [insertNewsRow a s r1] }, 0 + 1) := by
      unfold processNewsRecord
      rw [h1]
      dsimp only
      rw [if_neg (by simp [habs])]
    have hs2 : newsUrlPresent
        (store.news ++ [insertNewsRow a s r1]) (some u) = true := by
      unfold newsUrlPresent
      dsimp only
      rw [List.any_append]
      simp [insertNewsRow, h1]
    unfold process_news
    rw [List.foldl_cons, hs1, List.foldl_cons, List.foldl_nil]
    unfold processNewsRecord
    rw [h2]
    dsimp only
    rw [if_pos hs2]

/-- C8 witness: the two-record same-URL scenario on concrete data. -/
theorem C8_news_url_dedup_witness :
    process_news none none emptyStore [newsR1, newsR2] =
      ({ emptyStore with
          news := emptyStore.news ++ [insertNewsRow none none newsR1] }, 1) :=
  C8_news_url_dedup.2.2 none none emptyStore newsR1 newsR2 "https://n.example/a"
    (by decide) (by decide) (by decide) (by decide)

/-! ### Claim C9 -/

theorem step_malformed_trial (a i : Option DbId) (s : Option String)
    (st : Store × Counts) (bad : TrialRec) (h : bad.nct_id = none) :
    processTrialRecord a i s st bad = st := by
  unfold processTrialRecord
  rw [h]

theorem step_malformed_pub (a i : Option DbId) (s : Option String)
    (st : Store × Nat) (bad : PubRec) (h : bad.pmid = none) :
    processPubRecord a i s st bad = st := by
  unfold processPubRecord
  rw [h]

theorem step_malformed_patent (a : Option DbId) (s : Option String)
    (st : Store × Nat) (bad : PatentRec) (h : bad.patent_number = none) :
    processPatentRecord a s st bad = st := by
  unfold processPatentRecord
  rw [h]

theorem step_malformed_news (a : Option DbId) (s : Option String)
    (st : Store × Nat) (bad : NewsRec) (h : bad.url = none) :
    processNewsRecord a s st bad = st := by
  unfold processNewsRecord
  rw [h]

/-- C9: for each processing entry point, a record missing its natural
key is caught (a `KeyError` on the subscript for trials, publications
and patents; a not-null constraint violation on the URL insert for
news), skipped, and the batch result — stored state and returned
counts — is exactly that of the same batch without the malformed
record. -/
theorem C9_malformed_skipped :
    (∀ (a i : Option DbId) (s : Option String) (store : Store)
        (pre post : List TrialRec) (bad : TrialRec), bad.nct_id = none →
        process_clinical_trials a i s store (pre ++ bad :: post) =
          process_clinical_trials a i s store (pre ++ post)) ∧
    (∀ (a i : Option DbId) (s : Option String) (store : Store)
        (pre post : List PubRec) (bad : PubRec), bad.pmid = none →
        process_publications a i s store (pre ++ bad :: post) =
          process_publications a i s store (pre ++ post)) ∧
    (∀ (a : Option DbId) (s : Option String) (store : Store)
        (pre post : List PatentRec) (bad : PatentRec),
        bad.patent_number = none →
        process_patents a s store (pre ++ bad :: post) =
          process_patents a s store (pre ++ post)) ∧
    (∀ (a : Option DbId) (s : Option String) (store : Store)
        (pre post : List NewsRec) (bad : NewsRec), bad.url = none →
        process_news a s store (pre ++ bad :: post) =
          process_news a s store (pre ++ post)) := by
  refine ⟨?_, ?_, ?_, ?_⟩
  · intro a i s store pre post bad h
    unfold process_clinical_trials
    rw [List.foldl_append, List.foldl_append, List.foldl_cons,
      step_malformed_trial a i s _ bad h]
  · intro a i s store pre post bad h
    unfold process_publications
    rw [List.foldl_append, List.foldl_append, List.foldl_cons,
      step_malformed_pub a i s _ bad h]
  · intro a s store pre post bad h
    unfold process_patents
    rw [List.foldl_append, List.foldl_append, List.foldl_cons,
      step_malformed_patent a s _ bad h]
  · intro a s store pre post bad h
    unfold process_news
    rw [List.foldl_append, List.foldl_append, List.foldl_cons,
      step_malformed_news a s _ bad h]

/-- C9 witness: a malformed trial record amid a concrete batch. -/
theorem C9_malformed_skipped_witness :
    process_clinical_trials none none none emptyStore ([recA] ++ blankRec :: []) =
      process_clinical_trials none none none emptyStore ([recA] ++ []) :=
  C9_malformed_skipped.1 none none none emptyStore [recA] [] blankRec rfl

/-! ### Claim C1: wrappers for publications, patents and news -/

theorem findTrial_app_left {ts : List ClinicalTrial} {k : String}
    {row : ClinicalTrial} (h : findTrial ts k = some row)
    (l2 : List ClinicalTrial) : findTrial (ts ++ l2) k = some row :=
  find_app_left h l2

theorem findPub_sat {ps : List Publication} {k : String} {row : Publication}
    (h : findPub ps k = some row) : row.pmid = k := by
  have := find_sat h
  simpa using this

theorem findPub_app_left {ps : List Publication} {k : String}
    {row : Publication} (h : findPub ps k = some row)
    (l2 : List Publication) : findPub (ps ++ l2) k = some row :=
  find_app_left h l2

theorem findPub_set_same {ps : List Publication} {k : String}
    {row row2 : Publication} (h : findPub ps k = some row)
    (h2 : row2.pmid = k) : findPub (setPub ps k row2) k = some row2 := by
  have hx : (row2.pmid == k) = true := by simp [h2]
  exact replaceFirst_find_same h hx

theorem findPub_set_other {ps : List Publication} {k j : String}
    {row : Publication} (hjk : j ≠ k) (hrow : row.pmid = k) :
    findPub (setPub ps k row) j = findPub ps j := by
  apply replaceFirst_find_other
  · intro t ht
    have htj : t.pmid = j := by simpa using ht
    simp [htj]
    exact hjk
  · simp [hrow]
    exact fun hh => hjk hh.symm

theorem findPatent_sat {ps : List Patent} {k : String} {row : Patent}
    (h : findPatent ps k = some row) : row.patent_number = k := by
  have := find_sat h
  simpa using this

theorem findPatent_app_left {ps : List Patent} {k : String} {row : Patent}
    (h : findPatent ps k = some row) (l2 : List Patent) :
    findPatent (ps ++ l2) k = some row :=
  find_app_left h l2

theorem findPatent_set_same {ps : List Patent} {k : String}
    {row row2 : Patent} (h : findPatent ps k = some row)
    (h2 : row2.patent_number = k) :
    findPatent (setPatent ps k row2) k = some row2 := by
  have hx : (row2.patent_number == k) = true := by simp [h2]
  exact replaceFirst_find_same h hx

theorem findPatent_set_other {ps : List Patent} {k j : String} {row : Patent}
    (hjk : j ≠ k) (hrow : row.patent_number = k) :
    findPatent (setPatent ps k row) j = findPatent ps j := by
  apply replaceFirst_find_other
  · intro t ht
    have htj : t.patent_number = j := by simpa using ht
    simp [htj]
    exact hjk
  · simp [hrow]
    exact fun hh => hjk hh.symm

theorem pub_merge_asset_pmid (a : Option DbId) (p : Publication) :
    (pub_merge_asset a p).pmid = p.pmid := by
  unfold pub_merge_asset
  split <;> rfl

theorem pub_merge_indication_pmid (i : Option DbId) (p : Publication) :
    (pub_merge_indication i p).pmid = p.pmid := by
  unfold pub_merge_indication
  split <;> rfl

theorem pub_merge_indication_asset (i : Option DbId) (p : Publication) :
    (pub_merge_indication i p).asset_id = p.asset_id := by
  unfold pub_merge_indication
  split <;> rfl

theorem pub_merge_asset_ind (a : Option DbId) (p : Publication) :
    (pub_merge_asset a p).indication_id = p.indication_id := by
  unfold pub_merge_asset
  split <;> rfl

theorem pub_merge_asset_frozen (a : Option DbId) {p : Publication}
    (h : p.asset_id.isSome = true) : (pub_merge_asset a p).asset_id = p.asset_id := by
  unfold pub_merge_asset
  have hn : p.asset_id.isNone = false := by
    cases hp : p.asset_id with
    | none => rw [hp] at h; simp at h
    | some v => simp
  simp [hn]

theorem pub_merge_indication_frozen (i : Option DbId) {p : Publication}
    (h : p.indication_id.isSome = true) :
    (pub_merge_indication i p).indication_id = p.indication_id := by
  unfold pub_merge_indication
  have hn : p.indication_id.isNone = false := by
    cases hp : p.indication_id with
    | none => rw [hp] at h; simp at h
    | some v => simp
  simp [hn]

theorem patentRefresh_num (ex : Patent) (r : PatentRec) :
    (patentRefresh ex r).patent_number = ex.patent_number := rfl

theorem patentRefresh_asset (ex : Patent) (r : PatentRec) :
    (patentRefresh ex r).asset_id = ex.asset_id := rfl

/-- A non-null stored asset link survives one trial-processing step. -/
theorem trialStep_asset_frozen (a i : Option DbId) (s : Option String)
    (store : Store) (c : Counts) (r : TrialRec) (k : String) (v : DbId)
    (h : trialAsset store k = some (some v)) :
    trialAsset (processTrialRecord a i s (store, c) r).1 k = some (some v) := by
  unfold trialAsset at h
  obtain ⟨row, hfind, hrow⟩ := Option.map_eq_some'.mp h
  have hsome : row.asset_id.isSome = true := by rw [hrow]; rfl
  unfold processTrialRecord
  cases hk : r.nct_id with
  | none =>
    unfold trialAsset
    rw [hfind, Option.map_some', hrow]
  | some k2 =>
    dsimp only
    cases hf2 : findTrial store.trials k2 with
    | none =>
      dsimp only
      unfold trialAsset
      rw [findTrial_app_left hfind, Option.map_some', hrow]
    | some ex =>
      have hexk : ex.nct_id = k2 := findTrial_sat hf2
      dsimp only
      by_cases hkk : k = k2
      · subst hkk
        have hexr : ex = row := by
          rw [hf2] at hfind
          exact Option.some.inj hfind
        subst hexr
        split
        · unfold trialAsset
          rw [findTrial_set_same hf2 (by rw [merge_links_key, hexk])]
          rw [Option.map_some', merge_links_asset_frozen a i hsome, hrow]
        · unfold trialAsset
          rw [findTrial_set_same hf2
            (by rw [diffUpdatedRow_key, merge_links_key, hexk])]
          rw [Option.map_some', diffUpdatedRow_asset,
            merge_links_asset_frozen a i hsome, hrow]
      · split
        · unfold trialAsset
          rw [findTrial_set_other hkk (by rw [merge_links_key, hexk]), hfind,
            Option.map_some', hrow]
        · unfold trialAsset
          rw [findTrial_set_other hkk
            (by rw [diffUpdatedRow_key, merge_links_key, hexk]), hfind,
            Option.map_some', hrow]

/-- A non-null stored indication link survives one trial step. -/
theorem trialStep_ind_frozen (a i : Option DbId) (s : Option String)
    (store : Store) (c : Counts) (r : TrialRec) (k : String) (v : DbId)
    (h : trialInd store k = some (some v)) :
    trialInd (processTrialRecord a i s (store, c) r).1 k = some (some v) := by
  unfold trialInd at h
  obtain ⟨row, hfind, hrow⟩ := Option.map_eq_some'.mp h
  have hsome : row.indication_id.isSome = true := by rw [hrow]; rfl
  unfold processTrialRecord
  cases hk : r.nct_id with
  | none =>
    unfold trialInd
    rw [hfind, Option.map_some', hrow]
  | some k2 =>
    dsimp only
    cases hf2 : findTrial store.trials k2 with
    | none =>
      dsimp only
      unfold trialInd
      rw [findTrial_app_left hfind, Option.map_some', hrow]
    | some ex =>
      have hexk : ex.nct_id = k2 := findTrial_sat hf2
      dsimp only
      by_cases hkk : k = k2
      · subst hkk
        have hexr : ex = row := by
          rw [hf2] at hfind
          exact Option.some.inj hfind
        subst hexr
        split
        · unfold trialInd
          rw [findTrial_set_same hf2 (by rw [merge_links_key, hexk])]
          rw [Option.map_some', merge_links_ind_frozen a i hsome, hrow]
        · unfold trialInd
          rw [findTrial_set_same hf2
            (by rw [diffUpdatedRow_key, merge_links_key, hexk])]
          rw [Option.map_some', diffUpdatedRow_ind,
            merge_links_ind_frozen a i hsome, hrow]
      · split
        · unfold trialInd
          rw [findTrial_set_other hkk (by rw [merge_links_key, hexk]), hfind,
            Option.map_some', hrow]
        · unfold trialInd
          rw [findTrial_set_other hkk
            (by rw [diffUpdatedRow_key, merge_links_key, hexk]), hfind,
            Option.map_some', hrow]

/-- A non-null stored publication asset link survives one step. -/
theorem pubStep_asset_frozen (a i : Option DbId) (s : Option String)
    (store : Store) (c : Nat) (r : PubRec) (k : String) (v : DbId)
    (h : pubAsset store k = some (some v)) :
    pubAsset (processPubRecord a i s (store, c) r).1 k = some (some v) := by
  unfold pubAsset at h
  obtain ⟨row, hfind, hrow⟩ := Option.map_eq_some'.mp h
  have hsome : row.asset_id.isSome = true := by rw [hrow]; rfl
  unfold processPubRecord
  cases hk : r.pmid with
  | none =>
    unfold pubAsset
    rw [hfind, Option.map_some', hrow]
  | some k2 =>
    dsimp only
    cases hf2 : findPub store.pubs k2 with
    | none =>
      dsimp only
      unfold pubAsset
      rw [findPub_app_left hfind, Option.map_some', hrow]
    | some ex =>
      have hexk : ex.pmid = k2 := findPub_sat hf2
      dsimp only
      by_cases hkk : k = k2
      · subst hkk
        have hexr : ex = row := by
          rw [hf2] at hfind
          exact Option.some.inj hfind
        subst hexr
        unfold pubAsset
        rw [findPub_set_same hf2
          (by rw [pub_merge_indication_pmid, pub_merge_asset_pmid, hexk])]
        rw [Option.map_some', pub_merge_indication_asset,
          pub_merge_asset_frozen a hsome, hrow]
      · unfold pubAsset
        rw [findPub_set_other hkk
          (by rw [pub_merge_indication_pmid, pub_merge_asset_pmid, hexk]),
          hfind, Option.map_some', hrow]

/-- A non-null stored publication indication link survives one step. -/
theorem pubStep_ind_frozen (a i : Option DbId) (s : Option String)
    (store : Store) (c : Nat) (r : PubRec) (k : String) (v : DbId)
    (h : pubInd store k = some (some v)) :
    pubInd (processPubRecord a i s (store, c) r).1 k = some (some v) := by
  unfold pubInd at h
  obtain ⟨row, hfind, hrow⟩ := Option.map_eq_some'.mp h
  have hsome : row.indication_id.isSome = true := by rw [hrow]; rfl
  unfold processPubRecord
  cases hk : r.pmid with
  | none =>
    unfold pubInd
    rw [hfind, Option.map_some', hrow]
  | some k2 =>
    dsimp only
    cases hf2 : findPub store.pubs k2 with
    | none =>
      dsimp only
      unfold pubInd
      rw [findPub_app_left hfind, Option.map_some', hrow]
    | some ex =>
      have hexk : ex.pmid = k2 := findPub_sat hf2
      dsimp only
      by_cases hkk : k = k2
      · subst hkk
        have hexr : ex = row := by
          rw [hf2] at hfind
          exact Option.some.inj hfind
        subst hexr
        unfold pubInd
        rw [findPub_set_same hf2
          (by rw [pub_merge_indication_pmid, pub_merge_asset_pmid, hexk])]
        rw [Option.map_some',
          pub_merge_indication_frozen i (by rw [pub_merge_asset_ind]; exact hsome),
          pub_merge_asset_ind, hrow]
      · unfold pubInd
        rw [findPub_set_other hkk
          (by rw [pub_merge_indication_pmid, pub_merge_asset_pmid, hexk]),
          hfind, Option.map_some', hrow]

/-- A non-null stored patent asset link survives one step. -/
theorem patentStep_asset_frozen (a : Option DbId) (s : Option String)
    (store : Store) (c : Nat) (r : PatentRec) (k : String) (v : DbId)
    (h : patentAsset store k = some (some v)) :
    patentAsset (processPatentRecord a s (store, c) r).1 k = some (some v) := by
  unfold patentAsset at h
  obtain ⟨row, hfind, hrow⟩ := Option.map_eq_some'.mp h
  unfold processPatentRecord
  cases hk : r.patent_number with
  | none =>
    unfold patentAsset
    rw [hfind, Option.map_some', hrow]
  | some k2 =>
    dsimp only
    cases hf2 : findPatent store.patents k2 with
    | none =>
      dsimp only
      unfold patentAsset
      rw [findPatent_app_left hfind, Option.map_some', hrow]
    | some ex =>
      have hexk : ex.patent_number = k2 := findPatent_sat hf2
      dsimp only
      by_cases hkk : k = k2
      · subst hkk
        have hexr : ex = row := by
          rw [hf2] at hfind
          exact Option.some.inj hfind
        subst hexr
        unfold patentAsset
        rw [findPatent_set_same hf2 (by rw [patentRefresh_num, hexk])]
        rw [Option.map_some', patentRefresh_asset, hrow]
      · unfold patentAsset
        rw [findPatent_set_other hkk (by rw [patentRefresh_num, hexk]),
          hfind, Option.map_some', hrow]

/-- A non-null stored news asset link survives one step. -/
theorem newsStep_asset_frozen (a : Option DbId) (s : Option String)
    (store : Store) (c : Nat) (r : NewsRec) (u : String) (v : DbId)
    (h : newsAsset store u = some (some v)) :
    newsAsset (processNewsRecord a s (store, c) r).1 u = some (some v) := by
  unfold newsAsset at h
  obtain ⟨row, hfind, hrow⟩ := Option.map_eq_some'.mp h
  unfold processNewsRecord
  cases hu : r.url with
  | none =>
    unfold newsAsset
    rw [hfind, Option.map_some', hrow]
  | some u2 =>
    dsimp only
    split
    · unfold newsAsset
      rw [hfind, Option.map_some', hrow]
    · unfold newsAsset
      rw [find_app_left hfind, Option.map_some', hrow]

/-! ### Claim C1: preservation across operation sequences -/

theorem fkFrozen_refl (s : Store) : fkFrozen s s :=
  ⟨fun _ _ h => h, fun _ _ h => h, fun _ _ h => h, fun _ _ h => h,
   fun _ _ h => h, fun _ _ h => h⟩

theorem fkFrozen_trans {s1 s2 s3 : Store} (h12 : fkFrozen s1 s2)
    (h23 : fkFrozen s2 s3) : fkFrozen s1 s3 :=
  ⟨fun k v h => h23.1 k v (h12.1 k v h),
   fun k v h => h23.2.1 k v (h12.2.1 k v h),
   fun k v h => h23.2.2.1 k v (h12.2.2.1 k v h),
   fun k v h => h23.2.2.2.1 k v (h12.2.2.2.1 k v h),
   fun k v h => h23.2.2.2.2.1 k v (h12.2.2.2.2.1 k v h),
   fun u v h => h23.2.2.2.2.2 u v (h12.2.2.2.2.2 u v h)⟩

theorem fkFrozen_foldl {σ ρ : Type} (proj : σ → Store) (f : σ → ρ → σ)
    (hstep : ∀ st x, fkFrozen (proj st) (proj (f st x))) :
    ∀ (l : List ρ) (st : σ), fkFrozen (proj st) (proj (l.foldl f st)) := by
  intro l
  induction l with
  | nil =>
    intro st
    exact fkFrozen_refl _
  | cons x xs ih =>
    intro st
    rw [List.foldl_cons]
    exact fkFrozen_trans (hstep st x) (ih (f st x))

theorem trialStep_frozen (a i : Option DbId) (s : Option String)
    (st : Store × Counts) (r : TrialRec) :
    fkFrozen st.1 (processTrialRecord a i s st r).1 := by
  obtain ⟨store, c⟩ := st
  obtain ⟨hp, hn, hpat⟩ := trialStep_tables a i s (store, c) r
  refine ⟨?_, ?_, ?_, ?_, ?_, ?_⟩
  · intro k v h
    exact trialStep_asset_frozen a i s store c r k v h
  · intro k v h
    exact trialStep_ind_frozen a i s store c r k v h
  · intro k v h
    unfold pubAsset findPub
    rw [hp]
    exact h
  · intro k v h
    unfold pubInd findPub
    rw [hp]
    exact h
  · intro k v h
    unfold patentAsset findPatent
    rw [hpat]
    exact h
  · intro u v h
    unfold newsAsset
    rw [hn]
    exact h

theorem pubStep_frozen (a i : Option DbId) (s : Option String)
    (st : Store × Nat) (r : PubRec) :
    fkFrozen st.1 (processPubRecord a i s st r).1 := by
  obtain ⟨store, c⟩ := st
  obtain ⟨ht, hc, hn, hpat⟩ := pubStep_tables a i s (store, c) r
  refine ⟨?_, ?_, ?_, ?_, ?_, ?_⟩
  · intro k v h
    unfold trialAsset findTrial
    rw [ht]
    exact h
  · intro k v h
    unfold trialInd findTrial
    rw [ht]
    exact h
  · intro k v h
    exact pubStep_asset_frozen a i s store c r k v h
  · intro k v h
    exact pubStep_ind_frozen a i s store c r k v h
  · intro k v h
    unfold patentAsset findPatent
    rw [hpat]
    exact h
  · intro u v h
    unfold newsAsset
    rw [hn]
    exact h

theorem newsStep_frozen (a : Option DbId) (s : Option String)
    (st : Store × Nat) (r : NewsRec) :
    fkFrozen st.1 (processNewsRecord a s st r).1 := by
  obtain ⟨store, c⟩ := st
  obtain ⟨ht, hc, hp, hpat⟩ := newsStep_tables a s (store, c) r
  refine ⟨?_, ?_, ?_, ?_, ?_, ?_⟩
  · intro k v h
    unfold trialAsset findTrial
    rw [ht]
    exact h
  · intro k v h
    unfold trialInd findTrial
    rw [ht]
    exact h
  · intro k v h
    unfold pubAsset findPub
    rw [hp]
    exact h
  · intro k v h
    unfold pubInd findPub
    rw [hp]
    exact h
  · intro k v h
    unfold patentAsset findPatent
    rw [hpat]
    exact h
  · intro u v h
    exact newsStep_asset_frozen a s store c r u v h

theorem patentStep_frozen (a : Option DbId) (s : Option String)
    (st : Store × Nat) (r : PatentRec) :
    fkFrozen st.1 (processPatentRecord a s st r).1 := by
  obtain ⟨store, c⟩ := st
  obtain ⟨ht, hc, hp, hn⟩ := patentStep_tables a s (store, c) r
  refine ⟨?_, ?_, ?_, ?_, ?_, ?_⟩
  · intro k v h
    unfold trialAsset findTrial
    rw [ht]
    exact h
  · intro k v h
    unfold trialInd findTrial
    rw [ht]
    exact h
  · intro k v h
    unfold pubAsset findPub
    rw [hp]
    exact h
  · intro k v h
    unfold pubInd findPub
    rw [hp]
    exact h
  · intro k v h
    exact patentStep_asset_frozen a s store c r k v h
  · intro u v h
    unfold newsAsset
    rw [hn]
    exact h

theorem applyOp_frozen (store : Store) (op : Op) (h : op.isProcess = true) :
    fkFrozen store (applyOp store op) := by
  cases op with
  | trialsOp b a i s =>
    exact fkFrozen_foldl Prod.fst (processTrialRecord a i s)
      (fun st x => trialStep_frozen a i s st x) b (store, ⟨0, 0, 0⟩)
  | pubsOp b a i s =>
    exact fkFrozen_foldl Prod.fst (processPubRecord a i s)
      (fun st x => pubStep_frozen a i s st x) b (store, 0)
  | newsOp b a s =>
    exact fkFrozen_foldl Prod.fst (processNewsRecord a s)
      (fun st x => newsStep_frozen a s st x) b (store, 0)
  | patentsOp b a s =>
    exact fkFrozen_foldl Prod.fst (processPatentRecord a s)
      (fun st x => patentStep_frozen a s st x) b (store, 0)
  | linkOp n v =>
    simp [Op.isProcess] at h

/-- C1 counterexample: `link_trial_to_asset` sets the asset id
unconditionally, so it replaces an existing non-null asset link (here
the value 1) with a different non-null value (here 2), refuting the
claim for the operation set that includes it. -/
theorem C1_counterexample :
    trialAsset storeA "NCT0002" = some (some 1) ∧
    trialAsset (applyOps storeA [Op.linkOp "NCT0002" 2]) "NCT0002" =
      some (some 2) := by
  refine ⟨by decide, by decide⟩

/-- C1 (amended): across every sequence of the four batch-processing
operations — `link_trial_to_asset` excluded, since it overwrites the
asset link unconditionally — once a row's asset or indication foreign
key holds a non-null value, no later operation sets it to null or to a
different non-null value; and the link merge applies a foreign-key hint
exactly when the hint is non-null and the stored column is currently
null. -/
theorem C1_fk_write_once :
    (∀ (store : Store) (ops : List Op),
        (∀ op ∈ ops, op.isProcess = true) →
        fkFrozen store (applyOps store ops)) ∧
    (∀ (a i : Option DbId) (t : ClinicalTrial),
        (merge_links a i t).asset_id =
          (if a.isSome = true ∧ t.asset_id = none then a else t.asset_id) ∧
        (merge_links a i t).indication_id =
          (if i.isSome = true ∧ t.indication_id = none then i
           else t.indication_id)) := by
  constructor
  · intro store ops
    induction ops generalizing store with
    | nil =>
      intro _
      exact fkFrozen_refl store
    | cons op rest ih =>
      intro h
      have hstep := applyOp_frozen store op (h op (by simp))
      have hrest := ih (applyOp store op)
        (fun op2 hop2 => h op2 (List.mem_cons_of_mem _ hop2))
      exact fkFrozen_trans hstep hrest
  · intro a i t
    constructor
    · unfold merge_links
      rw [merge_indication_asset]
      unfold merge_asset
      cases ha : a with
      | none => simp
      | some av =>
        cases hta : t.asset_id with
        | none => simp [hta]
        | some tv => simp [hta]
    · unfold merge_links
      unfold merge_indication
      rw [merge_asset_ind]
      cases hi : i with
      | none => simp [merge_asset_ind]
      | some iv =>
        cases hti : t.indication_id with
        | none => simp [merge_asset_ind, hti]
        | some tv => simp [merge_asset_ind, hti]

/-- C1 witness: a later asset-axis trial batch carrying a different
hint does not steal the concrete stored asset link. -/
theorem C1_fk_write_once_witness :
    trialAsset (applyOps storeA [Op.trialsOp [recN3] (some 2) none none])
      "NCT0002" = some (some 1) :=
  (C1_fk_write_once.1 storeA [Op.trialsOp [recN3] (some 2) none none]
    (by
      intro op hop
      simp at hop
      rw [hop]
      rfl)).1 "NCT0002" 1 (by decide)

end PharmaCI
